import Mathlib

/-!
Verification of the concurrent HTTP file server (bounded queue, multi-policy
reader/writer lock, per-URI lock registry, GET/PUT handlers) against its
natural-language specification.  The C sources are shallowly embedded:
pure logic becomes Lean functions, the concurrent lock code becomes an
explicit labeled transition system whose atomic steps are the mutex-guarded
regions of the C code, split at every blocking point (sem_wait,
pthread_cond_wait).  Machine integers are modelled as Nat/Int.
-/

set_option maxHeartbeats 1000000
set_option maxRecDepth 4000

namespace Server

/-! ## HTTP request model (src/asgn2/seb_http.c) -/

/-- HTTP methods, from the Method enum in seb_http.h. -/
inductive Method
  | GET
  | PUT
  | UNSUPPORTED
deriving DecidableEq

/-- The handler's view of a parsed request: the fields of struct request in
seb_http.c that the handlers read (method, uri without the leading slash,
version digits, parsed headers, size of the body bytes already buffered). -/
structure ReqModel where
  method : Method
  uri : String
  httpVerMajor : Char
  httpVerMinor : Char
  headers : List (String × String)
  bodySize : Nat
deriving DecidableEq

/-- ASCII lower-casing of one character as a code point, the tolower step
of strcasecmp (header keys are ASCII by the parser's regex). -/
def charLowerNat (c : Char) : Nat :=
  if 65 ≤ c.toNat ∧ c.toNat ≤ 90 then c.toNat + 32 else c.toNat

/-- ASCII case-insensitive string comparison, embedding strcasecmp as used
by req_get_header_value. -/
def strCaseEq (a b : String) : Bool :=
  a.data.map charLowerNat == b.data.map charLowerNat

/-- Embedding of req_get_header_value: linear scan of the header array,
first key matching case-insensitively wins; NULL becomes none. -/
def req_get_header_value (req : ReqModel) (key : String) : Option String :=
  (req.headers.find? (fun h => strCaseEq h.1 key)).map (fun h => h.2)

/-- Two's-complement wrap to a 64-bit signed value, the behaviour of the
ssize_t arithmetic in _str_to_long on overflow. -/
def wrap64 (x : Int) : Int :=
  (x + 2 ^ 63) % 2 ^ 64 - 2 ^ 63

/-- Loop body of _str_to_long in seb_http.c: res *= 10 then res += digit,
both on the 64-bit signed ssize_t accumulator (each operation wraps); any
character outside [0-9] returns -1 immediately. -/
def strToLongAux : List Char → Int → Int
  | [], acc => acc
  | c :: rest, acc =>
      if '0' ≤ c ∧ c ≤ '9' then
        strToLongAux rest (wrap64 (wrap64 (acc * 10) + ((c.toNat : Int) - 48)))
      else
        -1

/-- Embedding of _str_to_long: 64-bit signed accumulation of an all-digit
string (wrapping on overflow), -1 otherwise. -/
def strToLong (s : String) : Int :=
  strToLongAux s.data 0

/-- The mathematical (unbounded) value of a digit string, used to state
when the accumulator of _str_to_long does not overflow. -/
def decValue (cs : List Char) : Nat :=
  cs.foldl (fun acc c => acc * 10 + (c.toNat - 48)) 0

/-- Embedding of req_get_content_length: -1 when the Content-Length header is
absent, -2 when its value is not a string of digits, the value otherwise. -/
def req_get_content_length (req : ReqModel) : Int :=
  match req_get_header_value req "Content-Length" with
  | none => -1
  | some s =>
      let contentLength := strToLong s
      if contentLength < 0 then -2 else contentLength

/-- A string that is a non-negative decimal integer, the spec's words for a
valid Content-Length value. -/
def isDecimalNat (s : String) : Bool :=
  s.data.all (fun c => decide ('0' ≤ c ∧ c ≤ '9'))

/-! ## Filesystem outcomes and the asgn4 handlers (src/asgn4/httpserver.c) -/

/-- The errno values distinguished by the handlers; every other errno value
is collapsed into other, matching the default cases of the C switches. -/
inductive Errno
  | ENOENT
  | EACCES
  | EISDIR
  | ENAMETOOLONG
  | EPERM
  | EROFS
  | EBADF
  | EFAULT
  | other
deriving DecidableEq

/-- Response type of seb_http.h: whether the handler already streamed its
own reply, and the status code. -/
structure Response where
  responded : Bool
  status : Nat
deriving DecidableEq

/-- Filesystem operations a handler performs, in program order. -/
inductive FsOp
  | openTrunc (uri : String)
  | creatFile (uri : String) (mode : Nat)
  | writeBody (uri : String) (nbytes : Nat)
  | passBytes (uri : String) (nbytes : Int)
deriving DecidableEq

/-- Body-writing tail of handle_put: nothing when Content-Length is zero,
otherwise the buffered body bytes, then the remaining bytes from the socket
when the buffered prefix does not already cover Content-Length. -/
def putWrites (req : ReqModel) (contentLength : Int) : List FsOp :=
  if contentLength = 0 then []
  else
    (if 0 < req.bodySize then [FsOp.writeBody req.uri req.bodySize] else [])
      ++ (if (req.bodySize : Int) = contentLength then []
          else [FsOp.passBytes req.uri (contentLength - (req.bodySize : Int))])

/-- Embedding of handle_put in src/asgn4/httpserver.c.  The open(2) outcome
is a parameter: none is success, some e is failure with errno e.  Returns
the Response together with the filesystem operations performed, in order. -/
def handle_put (req : ReqModel) (openRes : Option Errno) : Response × List FsOp :=
  let contentLength := req_get_content_length req
  if contentLength < 0 then
    (⟨false, 400⟩, [])
  else
    match openRes with
    | some Errno.EISDIR => (⟨false, 403⟩, [FsOp.openTrunc req.uri])
    | some Errno.EACCES => (⟨false, 403⟩, [FsOp.openTrunc req.uri])
    | some Errno.ENAMETOOLONG => (⟨false, 403⟩, [FsOp.openTrunc req.uri])
    | some Errno.EPERM => (⟨false, 403⟩, [FsOp.openTrunc req.uri])
    | some Errno.EROFS => (⟨false, 403⟩, [FsOp.openTrunc req.uri])
    | some Errno.ENOENT =>
        (⟨false, 201⟩,
          [FsOp.openTrunc req.uri, FsOp.creatFile req.uri 438] ++ putWrites req contentLength)
    | some _ => (⟨false, 500⟩, [FsOp.openTrunc req.uri])
    | none => (⟨false, 200⟩, [FsOp.openTrunc req.uri] ++ putWrites req contentLength)

/-- Result of fstat on the opened descriptor: whether the target is a
directory and its size. -/
structure StatInfo where
  isDir : Bool
  size : Nat
deriving DecidableEq

/-- The streamed success reply of handle_get: the literal status line it
writes, the Content-Length header value, and the number of body bytes
passed from the file to the socket. -/
structure GetStream where
  statusLine : String
  contentLength : Nat
  bodyBytes : Nat
deriving DecidableEq

/-- Errno mapping of the open(2) failure switch in handle_get. -/
def getOpenErrStatus : Errno → Nat
  | Errno.EACCES => 403
  | Errno.ENAMETOOLONG => 403
  | Errno.EPERM => 403
  | Errno.EROFS => 403
  | Errno.ENOENT => 404
  | _ => 500

/-- Errno mapping of the fstat failure switch in handle_get. -/
def getStatErrStatus : Errno → Nat
  | Errno.EACCES => 403
  | Errno.EBADF => 403
  | Errno.EFAULT => 403
  | Errno.ENOENT => 404
  | _ => 500

/-- Embedding of handle_get in src/asgn4/httpserver.c: open errno mapping,
fstat errno mapping, directory check, then a directly streamed 200 reply
whose Content-Length is the stat size.  Success returns responded = true. -/
def handle_get (openRes : Option Errno) (statRes : Except Errno StatInfo) :
    Response × Option GetStream :=
  match openRes with
  | some e => (⟨false, getOpenErrStatus e⟩, none)
  | none =>
      match statRes with
      | Except.error e => (⟨false, getStatErrStatus e⟩, none)
      | Except.ok st =>
          if st.isDir then (⟨false, 403⟩, none)
          else (⟨true, 200⟩, some ⟨"HTTP/1.1 200 OK", st.size, st.size⟩)

/-- The worker loop in src/asgn4/httpserver.c emits the canned response
exactly when the handler did not stream its own reply. -/
def dispatcherSendsCanned (r : Response) : Bool :=
  !r.responded

/-! ## asgn2 request validation (src/asgn2/httpserver.c) -/

/-- Embedding of validate_request in src/asgn2/httpserver.c: 501 for an
unsupported method, 400 for a GET with buffered body bytes (the GET case
falls through to the PUT case), 505 when the version is not 1.1, else 0. -/
def validate_request (req : ReqModel) : Nat :=
  match req.method with
  | Method.UNSUPPORTED => 501
  | Method.GET =>
      if req.bodySize ≠ 0 then 400
      else if req.httpVerMajor ≠ '1' ∨ req.httpVerMinor ≠ '1' then 505 else 0
  | Method.PUT =>
      if req.httpVerMajor ≠ '1' ∨ req.httpVerMinor ≠ '1' then 505 else 0

/-! ## asgn4 dispatcher (handle_connection in src/asgn4/httpserver.c) -/

/-- The observable events of one handle_connection call on a worker, in
program order: lock acquisition, handler completion, audit emission, lock
release, registry entry release. -/
inductive ConnEvent
  | lockAcquire (uri : String) (writeMode : Bool)
  | handlerDone (status : Nat)
  | audit (line : String)
  | lockRelease (uri : String)
  | entryRelease (uri : String)
deriving DecidableEq

/-- The audit line format of write_audit_log: METHOD,/URI,STATUS,REQUEST_ID
(the stored URI has no leading slash; the format string re-adds it). -/
def auditLine (op uri : String) (status : Nat) (reqId : String) : String :=
  op ++ ",/" ++ uri ++ "," ++ toString status ++ "," ++ reqId

/-- Embedding of handle_connection in src/asgn4/httpserver.c.  Parsing and
the two handlers are parameters: parseOk is whether req_parse returned 0,
and getRes/putRes are the Response values of handle_get/handle_put for this
request.  Note the C code performs no HTTP-version check: after the
Request-Id check it dispatches straight on the method. -/
def handle_connection (parseOk : Bool) (req : ReqModel)
    (getRes putRes : Response) : Response × List ConnEvent :=
  if !parseOk then (⟨false, 400⟩, [])
  else
    match req_get_header_value req "Request-Id" with
    | none => (⟨false, 400⟩, [])
    | some reqId =>
        match req.method with
        | Method.GET =>
            (getRes,
              [ConnEvent.lockAcquire req.uri false,
               ConnEvent.handlerDone getRes.status,
               ConnEvent.audit (auditLine "GET" req.uri getRes.status reqId),
               ConnEvent.lockRelease req.uri,
               ConnEvent.entryRelease req.uri])
        | Method.PUT =>
            (putRes,
              [ConnEvent.lockAcquire req.uri true,
               ConnEvent.handlerDone putRes.status,
               ConnEvent.audit (auditLine "PUT" req.uri putRes.status reqId),
               ConnEvent.lockRelease req.uri,
               ConnEvent.entryRelease req.uri])
        | Method.UNSUPPORTED => (⟨false, 501⟩, [])

/-- Recognizer for audit events, used to count emissions. -/
def isAuditEvent : ConnEvent → Bool
  | ConnEvent.audit _ => true
  | _ => false

/-! ## Per-URI lock registry (src/asgn4/httpserver.c) -/

/-- One slot of the registry: struct file_lock without the rwlock pointer
(the lock handle itself is never inspected by the registry logic).
filename = none models a NULL filename, users models the users count. -/
structure FileLock where
  filename : Option String
  users : Nat
deriving DecidableEq

/-- Embedding of find_file_lock: linear scan; the first NULL slot is claimed
for the URI with users = 1, the first byte-exact match gets users + 1.
Returns the slot index and the updated registry; none models the
fall-through return NULL of a full, matchless registry. -/
def find_file_lock : List FileLock → String → Option (Nat × List FileLock)
  | [], _ => none
  | s :: rest, uri =>
      match s.filename with
      | none => some (0, { filename := some uri, users := 1 } :: rest)
      | some f =>
          if f = uri then
            some (0, { filename := some f, users := s.users + 1 } :: rest)
          else
            (find_file_lock rest uri).map (fun p => (p.1 + 1, s :: p.2))

/-- Embedding of release_file_lock on the slot at index i: decrement users;
at zero the filename is freed and the slot becomes NULL. -/
def release_file_lock (slots : List FileLock) (i : Nat) : List FileLock :=
  match slots.get? i with
  | none => slots
  | some s =>
      let u := s.users - 1
      slots.set i (if u = 0 then { filename := none, users := 0 }
                   else { filename := s.filename, users := u })

/-! ## Bounded queue (src/asgn3/queue.c) -/

/-- struct queue: capacity, circular buffer (none models a cell never yet
written), head/tail cursors and the two counting semaphores: rdSem counts
filled slots, wrSem counts free slots. -/
structure CQueue (α : Type) where
  size : Nat
  buf : List (Option α)
  head : Nat
  tail : Nat
  rdSem : Nat
  wrSem : Nat

/-- Embedding of queue_new: a zero capacity is rejected (the C rejects
size <= 0); otherwise an empty queue with wrSem = size free slots. -/
def queue_new (α : Type) (size : Nat) : Option (CQueue α) :=
  if size = 0 then none
  else some { size := size, buf := List.replicate size none,
              head := 0, tail := 0, rdSem := 0, wrSem := size }

/-- Embedding of queue_push: sem_wait on the free-slot semaphore (none
models that the call blocks because the queue is full), write buf[head],
advance head modulo size, post the filled-slot semaphore. -/
def queue_push {α : Type} (q : CQueue α) (elem : α) : Option (CQueue α) :=
  if q.wrSem = 0 then none
  else some { q with buf := q.buf.set q.head (some elem),
                     head := (q.head + 1) % q.size,
                     rdSem := q.rdSem + 1,
                     wrSem := q.wrSem - 1 }

/-- Embedding of queue_pop: sem_wait on the filled-slot semaphore (none
models blocking on an empty queue), read buf[tail], advance tail modulo
size, post the free-slot semaphore. -/
def queue_pop {α : Type} (q : CQueue α) : Option (CQueue α × Option α) :=
  if q.rdSem = 0 then none
  else some ({ q with tail := (q.tail + 1) % q.size,
                      rdSem := q.rdSem - 1,
                      wrSem := q.wrSem + 1 },
             (q.buf.get? q.tail).join)

/-- Pushing a list of elements in order, failing if any push would block. -/
def pushAll {α : Type} (q : CQueue α) : List α → Option (CQueue α)
  | [] => some q
  | x :: xs =>
      match queue_push q x with
      | none => none
      | some q1 => pushAll q1 xs

/-- Popping k elements, collecting the values in pop order, failing if any
pop would block or reads a never-written cell. -/
def popAll {α : Type} (q : CQueue α) : Nat → Option (CQueue α × List α)
  | 0 => some (q, [])
  | k + 1 =>
      match queue_pop q with
      | none => none
      | some (_, none) => none
      | some (q1, some x) =>
          match popAll q1 k with
          | none => none
          | some (q2, xs) => some (q2, x :: xs)

/-- Abstraction relation: the queue state q represents the FIFO list c
(front of c = next element popped).  It records that the counting
semaphores agree with the contents, the head cursor sits c.length cells
after tail modulo size, and the c.length cells from tail hold c in order. -/
def QueueRep {α : Type} (q : CQueue α) (c : List α) : Prop :=
  0 < q.size ∧
  q.buf.length = q.size ∧
  q.rdSem = c.length ∧
  q.wrSem + q.rdSem = q.size ∧
  q.tail < q.size ∧
  q.head = (q.tail + c.length) % q.size ∧
  ∀ k, (hk : k < c.length) → q.buf.get? ((q.tail + k) % q.size) = some (some (c.get ⟨k, hk⟩))

/-! ## Multi-policy reader/writer lock (src/asgn3/rwlock.c)

The lock is embedded as a labeled transition system.  One state carries the
fields of struct rwlock with the union flattened (rd for the READERS
policy state, wr for WRITERS, nw for N_WAY), the binary write_lock
semaphore value, the guarding mutex (owner thread index, none when free),
and one program counter per thread.  Each transition is one mutex-guarded
region of the C code, split at every blocking point: a region that can
block inside sem_wait while holding the mutex keeps the mutex across the
split.  pthread_cond_wait is modelled by releasing the mutex and later
re-acquiring it and re-testing the loop condition; since POSIX allows
spurious wakeups, letting a waiter retry at any time is a faithful model
and condition signals/broadcasts need no explicit effect. -/

/-- The PRIORITY enum of rwlock.h. -/
inductive PRIORITY
  | READERS
  | WRITERS
  | N_WAY
deriving DecidableEq

/-- Per-thread program counter.  idle: outside any lock operation;
reading/writing: holding the lock in the given mode (writing means the
thread owns the write_lock semaphore).  The remaining points are the
blocking points of the three policies, prefixed rd/wr/nw for the
READERS/WRITERS/N_WAY code paths. -/
inductive PC
  | idle
  | reading
  | writing
  | rdRdWaitSem
  | rdWrCheck
  | rdWrCondWait
  | rdWrWaitSem
  | rdWuAfterPost
  | wrRdCheck
  | wrRdCondWait
  | wrRdWaitSem
  | wrWrWaitSem
  | nwRdCheck
  | nwRdCondWait
  | nwRdWaitSem
  | nwWrCheck
  | nwWrCondWait
  | nwWrWaitSem
  | nwWuAfterPost
deriving DecidableEq

/-- Global state of one rwlock plus its client threads.  The union of
struct rwlock is flattened: rdWriterHolding/rdWritersWaiting belong to the
READERS policy state, wrWritersWaiting/wrReadersWaiting to WRITERS, and
the nw fields to N_WAY. -/
structure RwState where
  priority : PRIORITY
  n : Nat
  readersHolding : Nat
  writeLock : Nat
  mutex : Option Nat
  rdWriterHolding : Bool
  rdWritersWaiting : Nat
  wrWritersWaiting : Nat
  wrReadersWaiting : Nat
  nwReadersWaiting : Nat
  nwReadersPassed : Nat
  nwWritersWaiting : Nat
  threads : List PC
deriving DecidableEq

/-- The state produced by rwlock_new for threadCount client threads, all of
them outside the lock: counters zero, write_lock semaphore 1, mutex free. -/
def rwInit (p : PRIORITY) (n : Nat) (threadCount : Nat) : RwState :=
  { priority := p, n := n, readersHolding := 0, writeLock := 1, mutex := none,
    rdWriterHolding := false, rdWritersWaiting := 0,
    wrWritersWaiting := 0, wrReadersWaiting := 0,
    nwReadersWaiting := 0, nwReadersPassed := 0, nwWritersWaiting := 0,
    threads := List.replicate threadCount PC.idle }

/-- Embedding of rwlock_new: N_WAY with n = 0 and (in the C, an invalid
enum value) fail to produce a handle. -/
def rwlock_new (p : PRIORITY) (n : Nat) (threadCount : Nat) : Option RwState :=
  match p with
  | PRIORITY.N_WAY => if n = 0 then none else some (rwInit p n threadCount)
  | _ => some (rwInit p n threadCount)

/-- Labels naming the atomic step of the C code a transition corresponds
to, used to count events along executions. -/
inductive Act
  | rdRdLockFirst
  | rdRdLockMore
  | rdRdLockSem
  | rdRdUnlock
  | rdWrLockEnter
  | rdWrLockGo
  | rdWrLockWait
  | rdWrLockWake
  | rdWrLockSem
  | rdWrUnlockPost
  | rdWrUnlockRest
  | wrRdLockEnter
  | wrRdLockWait
  | wrRdLockWake
  | wrRdLockFirst
  | wrRdLockMore
  | wrRdLockSem
  | wrRdUnlock
  | wrWrLockEnter
  | wrWrLockSem
  | wrWrUnlock
  | nwRdLockEnter
  | nwRdLockWait
  | nwRdLockWake
  | nwRdLockAdmitFirst
  | nwRdLockAdmitMore
  | nwRdLockSem
  | nwRdUnlock
  | nwWrLockEnter
  | nwWrLockWait
  | nwWrLockWake
  | nwWrLockGo
  | nwWrLockSem
  | nwWrUnlockPost
  | nwWrUnlockRest
deriving DecidableEq

/-- One atomic step of the rwlock transition system; i is the acting
thread.  Every constructor is one region of the corresponding C function
between blocking points. -/
inductive RwStep : RwState → Act → RwState → Prop
  /- READERS policy: rd_priority_rd_lock.  First reader (readers_holding
  is 0) keeps the mutex and parks at sem_wait(write_lock). -/
  | rdRdLockFirst (s : RwState) (i : Nat)
      (hp : s.priority = PRIORITY.READERS)
      (ht : s.threads.get? i = some PC.idle)
      (hm : s.mutex = none)
      (hr : s.readersHolding = 0) :
      RwStep s Act.rdRdLockFirst
        { s with mutex := some i, threads := s.threads.set i PC.rdRdWaitSem }
  /- rd_priority_rd_lock when readers already hold: increment and leave. -/
  | rdRdLockMore (s : RwState) (i : Nat)
      (hp : s.priority = PRIORITY.READERS)
      (ht : s.threads.get? i = some PC.idle)
      (hm : s.mutex = none)
      (hr : 0 < s.readersHolding) :
      RwStep s Act.rdRdLockMore
        { s with readersHolding := s.readersHolding + 1,
                 threads := s.threads.set i PC.reading }
  /- First reader acquires the write_lock semaphore, still holding the
  mutex, then increments readers_holding and releases the mutex. -/
  | rdRdLockSem (s : RwState) (i : Nat)
      (hp : s.priority = PRIORITY.READERS)
      (ht : s.threads.get? i = some PC.rdRdWaitSem)
      (hm : s.mutex = some i)
      (hw : 0 < s.writeLock) :
      RwStep s Act.rdRdLockSem
        { s with writeLock := s.writeLock - 1,
                 readersHolding := s.readersHolding + 1,
                 mutex := none,
                 threads := s.threads.set i PC.reading }
  /- rd_priority_rd_unlock: one mutex region; the last reader posts the
  write_lock semaphore (the cond signal has no modelled effect). -/
  | rdRdUnlock (s : RwState) (i : Nat)
      (hp : s.priority = PRIORITY.READERS)
      (ht : s.threads.get? i = some PC.reading)
      (hm : s.mutex = none) :
      RwStep s Act.rdRdUnlock
        { s with readersHolding := s.readersHolding - 1,
                 writeLock := if s.readersHolding - 1 = 0 then s.writeLock + 1
                              else s.writeLock,
                 threads := s.threads.set i PC.idle }
  /- rd_priority_wr_lock: take the mutex, writers_waiting++, reach the
  while test. -/
  | rdWrLockEnter (s : RwState) (i : Nat)
      (hp : s.priority = PRIORITY.READERS)
      (ht : s.threads.get? i = some PC.idle)
      (hm : s.mutex = none) :
      RwStep s Act.rdWrLockEnter
        { s with rdWritersWaiting := s.rdWritersWaiting + 1,
                 mutex := some i,
                 threads := s.threads.set i PC.rdWrCheck }
  /- While condition false: writers_waiting--, writer_holding := true,
  release the mutex, park at sem_wait(write_lock). -/
  | rdWrLockGo (s : RwState) (i : Nat)
      (hp : s.priority = PRIORITY.READERS)
      (ht : s.threads.get? i = some PC.rdWrCheck)
      (hm : s.mutex = some i)
      (hr : s.readersHolding = 0)
      (hh : s.rdWriterHolding = false) :
      RwStep s Act.rdWrLockGo
        { s with rdWritersWaiting := s.rdWritersWaiting - 1,
                 rdWriterHolding := true,
                 mutex := none,
                 threads := s.threads.set i PC.rdWrWaitSem }
  /- While condition true: pthread_cond_wait releases the mutex. -/
  | rdWrLockWait (s : RwState) (i : Nat)
      (hp : s.priority = PRIORITY.READERS)
      (ht : s.threads.get? i = some PC.rdWrCheck)
      (hm : s.mutex = some i)
      (hc : 0 < s.readersHolding ∨ s.rdWriterHolding = true) :
      RwStep s Act.rdWrLockWait
        { s with mutex := none, threads := s.threads.set i PC.rdWrCondWait }
  /- Wakeup (possibly spurious): re-acquire the mutex, retest. -/
  | rdWrLockWake (s : RwState) (i : Nat)
      (hp : s.priority = PRIORITY.READERS)
      (ht : s.threads.get? i = some PC.rdWrCondWait)
      (hm : s.mutex = none) :
      RwStep s Act.rdWrLockWake
        { s with mutex := some i, threads := s.threads.set i PC.rdWrCheck }
  /- sem_wait(write_lock) after the mutex was released: the writer enters
  the critical section. -/
  | rdWrLockSem (s : RwState) (i : Nat)
      (hp : s.priority = PRIORITY.READERS)
      (ht : s.threads.get? i = some PC.rdWrWaitSem)
      (hw : 0 < s.writeLock) :
      RwStep s Act.rdWrLockSem
        { s with writeLock := s.writeLock - 1,
                 threads := s.threads.set i PC.writing }
  /- rd_priority_wr_unlock: sem_post happens before the mutex is taken. -/
  | rdWrUnlockPost (s : RwState) (i : Nat)
      (hp : s.priority = PRIORITY.READERS)
      (ht : s.threads.get? i = some PC.writing) :
      RwStep s Act.rdWrUnlockPost
        { s with writeLock := s.writeLock + 1,
                 threads := s.threads.set i PC.rdWuAfterPost }
  /- rd_priority_wr_unlock tail: mutex region clearing writer_holding. -/
  | rdWrUnlockRest (s : RwState) (i : Nat)
      (hp : s.priority = PRIORITY.READERS)
      (ht : s.threads.get? i = some PC.rdWuAfterPost)
      (hm : s.mutex = none) :
      RwStep s Act.rdWrUnlockRest
        { s with rdWriterHolding := false,
                 threads := s.threads.set i PC.idle }
  /- WRITERS policy: wr_priority_rd_lock entry: readers_waiting++,
  reach the while test holding the mutex. -/
  | wrRdLockEnter (s : RwState) (i : Nat)
      (hp : s.priority = PRIORITY.WRITERS)
      (ht : s.threads.get? i = some PC.idle)
      (hm : s.mutex = none) :
      RwStep s Act.wrRdLockEnter
        { s with wrReadersWaiting := s.wrReadersWaiting + 1,
                 mutex := some i,
                 threads := s.threads.set i PC.wrRdCheck }
  /- Writers are in line: pthread_cond_wait releases the mutex. -/
  | wrRdLockWait (s : RwState) (i : Nat)
      (hp : s.priority = PRIORITY.WRITERS)
      (ht : s.threads.get? i = some PC.wrRdCheck)
      (hm : s.mutex = some i)
      (hc : 0 < s.wrWritersWaiting) :
      RwStep s Act.wrRdLockWait
        { s with mutex := none, threads := s.threads.set i PC.wrRdCondWait }
  /- Wakeup (possibly spurious): re-acquire the mutex, retest. -/
  | wrRdLockWake (s : RwState) (i : Nat)
      (hp : s.priority = PRIORITY.WRITERS)
      (ht : s.threads.get? i = some PC.wrRdCondWait)
      (hm : s.mutex = none) :
      RwStep s Act.wrRdLockWake
        { s with mutex := some i, threads := s.threads.set i PC.wrRdCheck }
  /- No writers in line and no reader holds: the first reader parks at
  sem_wait(write_lock) still holding the mutex. -/
  | wrRdLockFirst (s : RwState) (i : Nat)
      (hp : s.priority = PRIORITY.WRITERS)
      (ht : s.threads.get? i = some PC.wrRdCheck)
      (hm : s.mutex = some i)
      (hc : s.wrWritersWaiting = 0)
      (hr : s.readersHolding = 0) :
      RwStep s Act.wrRdLockFirst
        { s with threads := s.threads.set i PC.wrRdWaitSem }
  /- No writers in line, readers already hold: join them directly. -/
  | wrRdLockMore (s : RwState) (i : Nat)
      (hp : s.priority = PRIORITY.WRITERS)
      (ht : s.threads.get? i = some PC.wrRdCheck)
      (hm : s.mutex = some i)
      (hc : s.wrWritersWaiting = 0)
      (hr : 0 < s.readersHolding) :
      RwStep s Act.wrRdLockMore
        { s with wrReadersWaiting := s.wrReadersWaiting - 1,
                 readersHolding := s.readersHolding + 1,
                 mutex := none,
                 threads := s.threads.set i PC.reading }
  /- First reader acquires the write_lock semaphore while holding the
  mutex, then readers_waiting--, readers_holding++, mutex released. -/
  | wrRdLockSem (s : RwState) (i : Nat)
      (hp : s.priority = PRIORITY.WRITERS)
      (ht : s.threads.get? i = some PC.wrRdWaitSem)
      (hm : s.mutex = some i)
      (hw : 0 < s.writeLock) :
      RwStep s Act.wrRdLockSem
        { s with writeLock := s.writeLock - 1,
                 wrReadersWaiting := s.wrReadersWaiting - 1,
                 readersHolding := s.readersHolding + 1,
                 mutex := none,
                 threads := s.threads.set i PC.reading }
  /- wr_priority_rd_unlock: one mutex region; the last reader posts the
  write_lock semaphore (the broadcast has no modelled effect). -/
  | wrRdUnlock (s : RwState) (i : Nat)
      (hp : s.priority = PRIORITY.WRITERS)
      (ht : s.threads.get? i = some PC.reading)
      (hm : s.mutex = none) :
      RwStep s Act.wrRdUnlock
        { s with readersHolding := s.readersHolding - 1,
                 writeLock := if s.readersHolding - 1 = 0 then s.writeLock + 1
                              else s.writeLock,
                 threads := s.threads.set i PC.idle }
  /- wr_priority_wr_lock: mutex region incrementing writers_waiting, then
  park at sem_wait(write_lock) without the mutex. -/
  | wrWrLockEnter (s : RwState) (i : Nat)
      (hp : s.priority = PRIORITY.WRITERS)
      (ht : s.threads.get? i = some PC.idle)
      (hm : s.mutex = none) :
      RwStep s Act.wrWrLockEnter
        { s with wrWritersWaiting := s.wrWritersWaiting + 1,
                 threads := s.threads.set i PC.wrWrWaitSem }
  /- Writer acquires the write_lock semaphore. -/
  | wrWrLockSem (s : RwState) (i : Nat)
      (hp : s.priority = PRIORITY.WRITERS)
      (ht : s.threads.get? i = some PC.wrWrWaitSem)
      (hw : 0 < s.writeLock) :
      RwStep s Act.wrWrLockSem
        { s with writeLock := s.writeLock - 1,
                 threads := s.threads.set i PC.writing }
  /- wr_priority_wr_unlock: one mutex region, writers_waiting-- and
  sem_post(write_lock) both inside it. -/
  | wrWrUnlock (s : RwState) (i : Nat)
      (hp : s.priority = PRIORITY.WRITERS)
      (ht : s.threads.get? i = some PC.writing)
      (hm : s.mutex = none) :
      RwStep s Act.wrWrUnlock
        { s with wrWritersWaiting := s.wrWritersWaiting - 1,
                 writeLock := s.writeLock + 1,
                 threads := s.threads.set i PC.idle }
  /- N_WAY policy: nway_priority_rd_lock entry: readers_waiting++,
  reach the while test holding the mutex. -/
  | nwRdLockEnter (s : RwState) (i : Nat)
      (hp : s.priority = PRIORITY.N_WAY)
      (ht : s.threads.get? i = some PC.idle)
      (hm : s.mutex = none) :
      RwStep s Act.nwRdLockEnter
        { s with nwReadersWaiting := s.nwReadersWaiting + 1,
                 mutex := some i,
                 threads := s.threads.set i PC.nwRdCheck }
  /- Quota exhausted and a writer queued: pthread_cond_wait. -/
  | nwRdLockWait (s : RwState) (i : Nat)
      (hp : s.priority = PRIORITY.N_WAY)
      (ht : s.threads.get? i = some PC.nwRdCheck)
      (hm : s.mutex = some i)
      (hc : s.n ≤ s.nwReadersPassed ∧ 0 < s.nwWritersWaiting) :
      RwStep s Act.nwRdLockWait
        { s with mutex := none, threads := s.threads.set i PC.nwRdCondWait }
  /- Wakeup (possibly spurious): re-acquire the mutex, retest. -/
  | nwRdLockWake (s : RwState) (i : Nat)
      (hp : s.priority = PRIORITY.N_WAY)
      (ht : s.threads.get? i = some PC.nwRdCondWait)
      (hm : s.mutex = none) :
      RwStep s Act.nwRdLockWake
        { s with mutex := some i, threads := s.threads.set i PC.nwRdCheck }
  /- Admission with no reader holding: readers_passed++ (saturating at n),
  readers_waiting--, park at sem_wait(write_lock) holding the mutex. -/
  | nwRdLockAdmitFirst (s : RwState) (i : Nat)
      (hp : s.priority = PRIORITY.N_WAY)
      (ht : s.threads.get? i = some PC.nwRdCheck)
      (hm : s.mutex = some i)
      (hc : s.nwReadersPassed < s.n ∨ s.nwWritersWaiting = 0)
      (hr : s.readersHolding = 0) :
      RwStep s Act.nwRdLockAdmitFirst
        { s with nwReadersPassed := if s.nwReadersPassed < s.n
                                    then s.nwReadersPassed + 1
                                    else s.nwReadersPassed,
                 nwReadersWaiting := s.nwReadersWaiting - 1,
                 threads := s.threads.set i PC.nwRdWaitSem }
  /- Admission while readers hold: enter directly. -/
  | nwRdLockAdmitMore (s : RwState) (i : Nat)
      (hp : s.priority = PRIORITY.N_WAY)
      (ht : s.threads.get? i = some PC.nwRdCheck)
      (hm : s.mutex = some i)
      (hc : s.nwReadersPassed < s.n ∨ s.nwWritersWaiting = 0)
      (hr : 0 < s.readersHolding) :
      RwStep s Act.nwRdLockAdmitMore
        { s with nwReadersPassed := if s.nwReadersPassed < s.n
                                    then s.nwReadersPassed + 1
                                    else s.nwReadersPassed,
                 nwReadersWaiting := s.nwReadersWaiting - 1,
                 readersHolding := s.readersHolding + 1,
                 mutex := none,
                 threads := s.threads.set i PC.reading }
  /- First reader acquires the write_lock semaphore while holding the
  mutex, then readers_holding++, mutex released. -/
  | nwRdLockSem (s : RwState) (i : Nat)
      (hp : s.priority = PRIORITY.N_WAY)
      (ht : s.threads.get? i = some PC.nwRdWaitSem)
      (hm : s.mutex = some i)
      (hw : 0 < s.writeLock) :
      RwStep s Act.nwRdLockSem
        { s with writeLock := s.writeLock - 1,
                 readersHolding := s.readersHolding + 1,
                 mutex := none,
                 threads := s.threads.set i PC.reading }
  /- nway_priority_rd_unlock: one mutex region; the last reader posts the
  write_lock semaphore (the signal/broadcast choice has no modelled
  effect). -/
  | nwRdUnlock (s : RwState) (i : Nat)
      (hp : s.priority = PRIORITY.N_WAY)
      (ht : s.threads.get? i = some PC.reading)
      (hm : s.mutex = none) :
      RwStep s Act.nwRdUnlock
        { s with readersHolding := s.readersHolding - 1,
                 writeLock := if s.readersHolding - 1 = 0 then s.writeLock + 1
                              else s.writeLock,
                 threads := s.threads.set i PC.idle }
  /- nway_priority_wr_lock entry: writers_waiting++ (the count includes
  the eventual holder), reach the while test holding the mutex. -/
  | nwWrLockEnter (s : RwState) (i : Nat)
      (hp : s.priority = PRIORITY.N_WAY)
      (ht : s.threads.get? i = some PC.idle)
      (hm : s.mutex = none) :
      RwStep s Act.nwWrLockEnter
        { s with nwWritersWaiting := s.nwWritersWaiting + 1,
                 mutex := some i,
                 threads := s.threads.set i PC.nwWrCheck }
  /- Readers hold, or quota unexhausted with readers queued: cond_wait. -/
  | nwWrLockWait (s : RwState) (i : Nat)
      (hp : s.priority = PRIORITY.N_WAY)
      (ht : s.threads.get? i = some PC.nwWrCheck)
      (hm : s.mutex = some i)
      (hc : 0 < s.readersHolding ∨
            (s.nwReadersPassed < s.n ∧ 0 < s.nwReadersWaiting)) :
      RwStep s Act.nwWrLockWait
        { s with mutex := none, threads := s.threads.set i PC.nwWrCondWait }
  /- Wakeup (possibly spurious): re-acquire the mutex, retest. -/
  | nwWrLockWake (s : RwState) (i : Nat)
      (hp : s.priority = PRIORITY.N_WAY)
      (ht : s.threads.get? i = some PC.nwWrCondWait)
      (hm : s.mutex = none) :
      RwStep s Act.nwWrLockWake
        { s with mutex := some i, threads := s.threads.set i PC.nwWrCheck }
  /- While condition false: release the mutex, park at sem_wait. -/
  | nwWrLockGo (s : RwState) (i : Nat)
      (hp : s.priority = PRIORITY.N_WAY)
      (ht : s.threads.get? i = some PC.nwWrCheck)
      (hm : s.mutex = some i)
      (hr : s.readersHolding = 0)
      (hc : s.n ≤ s.nwReadersPassed ∨ s.nwReadersWaiting = 0) :
      RwStep s Act.nwWrLockGo
        { s with mutex := none, threads := s.threads.set i PC.nwWrWaitSem }
  /- Writer acquires the write_lock semaphore. -/
  | nwWrLockSem (s : RwState) (i : Nat)
      (hp : s.priority = PRIORITY.N_WAY)
      (ht : s.threads.get? i = some PC.nwWrWaitSem)
      (hw : 0 < s.writeLock) :
      RwStep s Act.nwWrLockSem
        { s with writeLock := s.writeLock - 1,
                 threads := s.threads.set i PC.writing }
  /- nway_priority_wr_unlock: sem_post happens before the mutex is
  taken. -/
  | nwWrUnlockPost (s : RwState) (i : Nat)
      (hp : s.priority = PRIORITY.N_WAY)
      (ht : s.threads.get? i = some PC.writing) :
      RwStep s Act.nwWrUnlockPost
        { s with writeLock := s.writeLock + 1,
                 threads := s.threads.set i PC.nwWuAfterPost }
  /- nway_priority_wr_unlock tail: mutex region, writers_waiting-- and
  readers_passed := 0 (the wakeups have no modelled effect). -/
  | nwWrUnlockRest (s : RwState) (i : Nat)
      (hp : s.priority = PRIORITY.N_WAY)
      (ht : s.threads.get? i = some PC.nwWuAfterPost)
      (hm : s.mutex = none) :
      RwStep s Act.nwWrUnlockRest
        { s with nwWritersWaiting := s.nwWritersWaiting - 1,
                 nwReadersPassed := 0,
                 threads := s.threads.set i PC.idle }

/-- Inductive invariant of the rwlock: readers_holding counts exactly the
threads at pc reading, and exactly one gate token exists, held by the
write_lock semaphore, by a writer at pc writing, or by the reader cohort
as a whole (when readers_holding is positive). -/
def rwInv (s : RwState) : Prop :=
  s.threads.count PC.reading = s.readersHolding ∧
  s.writeLock + s.threads.count PC.writing
    + (if 0 < s.readersHolding then 1 else 0) = 1

/-- Reachability of a state from a given start state by rwlock steps. -/
inductive RwReach (s0 : RwState) : RwState → Prop
  | refl : RwReach s0 s0
  | tail {s s2 : RwState} {a : Act} (h : RwReach s0 s) (hs : RwStep s a s2) :
      RwReach s0 s2

/-- A finite execution fragment from s recorded as the list of (label,
successor state) pairs of its steps, in order. -/
inductive RwExec : RwState → List (Act × RwState) → Prop
  | nil (s : RwState) : RwExec s []
  | cons {s s2 : RwState} {a : Act} {tr : List (Act × RwState)}
      (hs : RwStep s a s2) (h : RwExec s2 tr) : RwExec s ((a, s2) :: tr)

/-- A thread holds the write gate as a writer exactly at pc writing. -/
def writerInCrit (s : RwState) : Prop :=
  ∃ i, s.threads.get? i = some PC.writing

/-- Acts that admit a reader past the N_WAY quota check. -/
def isNwAdmit : Act → Bool
  | Act.nwRdLockAdmitFirst => true
  | Act.nwRdLockAdmitMore => true
  | _ => false

/-- Acts by which a reader enters the critical region (becomes reading)
under N_WAY. -/
def isNwReaderEnter : Act → Bool
  | Act.nwRdLockAdmitMore => true
  | Act.nwRdLockSem => true
  | _ => false

/-- Number of reader critical-region entries along a fragment. -/
def countReaderEnters (tr : List (Act × RwState)) : Nat :=
  tr.countP (fun p => isNwReaderEnter p.1)

/-- Number of quota admissions along a fragment. -/
def countAdmits (tr : List (Act × RwState)) : Nat :=
  tr.countP (fun p => isNwAdmit p.1)

/-- A thread has called writer_lock under N_WAY and has not yet been
granted the write gate (Boolean form, at the while test, inside cond_wait,
or at sem_wait on the write gate). -/
def nwWriterWaitingB : PC → Bool
  | PC.nwWrCheck => true
  | PC.nwWrCondWait => true
  | PC.nwWrWaitSem => true
  | _ => false

/-- Claim C2 read literally: for every N_WAY lock (parameter n positive),
every reachable state s and every execution fragment from s during which
some fixed writer thread t is continuously waiting (writer_lock called,
write gate not yet granted), at most n readers enter the critical region
along the fragment. -/
def NWayQuotaStrict : Prop :=
  ∀ (n threadCount : Nat) (s0 s : RwState) (tr : List (Act × RwState)) (t : Nat),
    0 < n →
    rwlock_new PRIORITY.N_WAY n threadCount = some s0 →
    RwReach s0 s →
    RwExec s tr →
    (∀ pc, s.threads.get? t = some pc → nwWriterWaitingB pc = true) →
    (∀ p, p ∈ tr → ∀ pc, p.2.threads.get? t = some pc → nwWriterWaitingB pc = true) →
    countReaderEnters tr ≤ n

/-! ## Concrete scenario states used to settle C2

Four threads on an N_WAY lock with n = 1: thread 0 is a writer that holds
the gate, thread 1 is a writer that arrives and waits, threads 2 and 3 are
readers.  The states below follow the C code step by step. -/

/-- Fresh N_WAY lock with n = 1 and four client threads. -/
def nwBase : RwState := rwInit PRIORITY.N_WAY 1 4

/-- Thread 0 entered nway_priority_wr_lock (writers_waiting++). -/
def nwSt1 : RwState :=
  { nwBase with nwWritersWaiting := 1, mutex := some 0,
                threads := [PC.nwWrCheck, PC.idle, PC.idle, PC.idle] }

/-- Thread 0 passed the while test (no readers) and released the mutex. -/
def nwSt2 : RwState :=
  { nwSt1 with mutex := none,
               threads := [PC.nwWrWaitSem, PC.idle, PC.idle, PC.idle] }

/-- Thread 0 acquired the write gate: it is the writer in the critical
section. -/
def nwSt3 : RwState :=
  { nwSt2 with writeLock := 0,
               threads := [PC.writing, PC.idle, PC.idle, PC.idle] }

/-- Thread 1 entered nway_priority_wr_lock (writers_waiting = 2: the count
includes the holder). -/
def nwSt4 : RwState :=
  { nwSt3 with nwWritersWaiting := 2, mutex := some 1,
               threads := [PC.writing, PC.nwWrCheck, PC.idle, PC.idle] }

/-- Thread 1 passed the while test (no readers hold or wait) and parked at
sem_wait(write_lock); from here on it waits for the gate. -/
def nwSt5 : RwState :=
  { nwSt4 with mutex := none,
               threads := [PC.writing, PC.nwWrWaitSem, PC.idle, PC.idle] }

/-- Reader thread 2 entered nway_priority_rd_lock (readers_waiting++). -/
def nwSt6 : RwState :=
  { nwSt5 with nwReadersWaiting := 1, mutex := some 2,
               threads := [PC.writing, PC.nwWrWaitSem, PC.nwRdCheck, PC.idle] }

/-- Thread 2 was admitted past the quota check (readers_passed := 1) and,
being the first reader, parked at sem_wait(write_lock) holding the mutex. -/
def nwSt7 : RwState :=
  { nwSt6 with nwReadersPassed := 1, nwReadersWaiting := 0,
               threads := [PC.writing, PC.nwWrWaitSem, PC.nwRdWaitSem, PC.idle] }

/-- Thread 0 began nway_priority_wr_unlock: sem_post(write_lock) happens
before the mutex is taken. -/
def nwSt8 : RwState :=
  { nwSt7 with writeLock := 1,
               threads := [PC.nwWuAfterPost, PC.nwWrWaitSem, PC.nwRdWaitSem, PC.idle] }

/-- Thread 2 (not thread 1) won the race for the posted gate and entered
the critical region as a reader. -/
def nwSt9 : RwState :=
  { nwSt8 with writeLock := 0, readersHolding := 1, mutex := none,
               threads := [PC.nwWuAfterPost, PC.nwWrWaitSem, PC.reading, PC.idle] }

/-- Thread 0 finished its unlock: writers_waiting := 1 and the window reset
readers_passed := 0. -/
def nwSt10 : RwState :=
  { nwSt9 with nwWritersWaiting := 1, nwReadersPassed := 0,
               threads := [PC.idle, PC.nwWrWaitSem, PC.reading, PC.idle] }

/-- Reader thread 3 entered nway_priority_rd_lock. -/
def nwSt11 : RwState :=
  { nwSt10 with nwReadersWaiting := 1, mutex := some 3,
                threads := [PC.idle, PC.nwWrWaitSem, PC.reading, PC.nwRdCheck] }

/-- Thread 3 was admitted past the (freshly reset) quota check and joined
thread 2 in the critical region, while writer thread 1 still waits. -/
def nwSt12 : RwState :=
  { nwSt11 with nwReadersPassed := 1, nwReadersWaiting := 0, readersHolding := 2,
                mutex := none,
                threads := [PC.idle, PC.nwWrWaitSem, PC.reading, PC.reading] }

/-- The execution fragment during which writer thread 1 waits continuously:
two readers enter the critical region although n = 1. -/
def nwTrace : List (Act × RwState) :=
  [(Act.nwWrUnlockPost, nwSt8), (Act.nwRdLockSem, nwSt9),
   (Act.nwWrUnlockRest, nwSt10), (Act.nwRdLockEnter, nwSt11),
   (Act.nwRdLockAdmitMore, nwSt12)]

/-- A reader at the quota check with no writer waiting, used to witness
that the quota never blocks readers when no writer is queued. -/
def nwStR : RwState :=
  { nwBase with nwReadersWaiting := 1, mutex := some 0,
                threads := [PC.nwRdCheck, PC.idle, PC.idle, PC.idle] }

/-! ## Concrete requests used as witnesses and failing inputs -/

/-- The spec scenario GET /a HTTP/0.9 with a Request-Id header, as parsed
by seb_http.c (the URI is stored without its leading slash); here the
target file is taken to be missing.  This is the failing input for C3. -/
def req505 : ReqModel :=
  { method := Method.GET, uri := "a", httpVerMajor := '0', httpVerMinor := '9',
    headers := [("Request-Id", "5")], bodySize := 0 }

/-- A well-formed GET request used as a concrete witness input. -/
def reqGetW : ReqModel :=
  { method := Method.GET, uri := "a", httpVerMajor := '1', httpVerMinor := '1',
    headers := [("Request-Id", "3")], bodySize := 0 }

/-- A well-formed PUT request with a valid Content-Length. -/
def reqPutW : ReqModel :=
  { method := Method.PUT, uri := "a", httpVerMajor := '1', httpVerMinor := '1',
    headers := [("Request-Id", "2"), ("Content-Length", "5")], bodySize := 5 }

/-- A PUT request whose Content-Length value is the all-digit string
9223372036854775808 = 2^63: it overflows the ssize_t accumulator of
_str_to_long, wrapping to -2^63.  The parser admits header values of up to
128 characters, so this input is reachable. -/
def reqPutOvf : ReqModel :=
  { method := Method.PUT, uri := "a", httpVerMajor := '1', httpVerMinor := '1',
    headers := [("Request-Id", "2"), ("Content-Length", "9223372036854775808")],
    bodySize := 0 }

/-- A PUT request whose Content-Length header is missing. -/
def reqPutNoCl : ReqModel :=
  { method := Method.PUT, uri := "a", httpVerMajor := '1', httpVerMinor := '1',
    headers := [("Request-Id", "2")], bodySize := 0 }

/-! # Theorems -/

/-! ## Content-Length parsing -/

theorem decFold_ge (cs : List Char) :
    ∀ acc : Nat, acc ≤ cs.foldl (fun a c => a * 10 + (c.toNat - 48)) acc := by
  induction cs with
  | nil => intro acc; exact le_refl acc
  | cons c rest ih =>
      intro acc
      simp only [List.foldl_cons]
      exact le_trans (by omega) (ih (acc * 10 + (c.toNat - 48)))

theorem wrap64_eq_of_small (x : Int) (h0 : 0 ≤ x) (h1 : x < 2 ^ 63) :
    wrap64 x = x := by
  unfold wrap64
  have h2 : (2 : Int) ^ 64 = 2 ^ 63 + 2 ^ 63 := by norm_num
  rw [Int.emod_eq_of_lt (by omega) (by omega)]
  omega

/-- When the mathematical value of an all-digit string stays below 2^63,
no step of _str_to_long's 64-bit accumulation wraps, and the result is the
mathematical value. -/
theorem strToLongAux_eq_of_small (cs : List Char) :
    ∀ acc : Nat,
      cs.all (fun c => decide ('0' ≤ c ∧ c ≤ '9')) = true →
      cs.foldl (fun a c => a * 10 + (c.toNat - 48)) acc < 2 ^ 63 →
      strToLongAux cs (acc : Int)
        = ((cs.foldl (fun a c => a * 10 + (c.toNat - 48)) acc : Nat) : Int) := by
  induction cs with
  | nil => intro acc _ _; rfl
  | cons c rest ih =>
      intro acc hall hlt
      simp only [List.all_cons, Bool.and_eq_true, decide_eq_true_eq] at hall
      have h0 := hall.1
      have h48 : (48 : Nat) ≤ c.toNat := h0.1
      simp only [List.foldl_cons] at hlt ⊢
      have hge := decFold_ge rest (acc * 10 + (c.toNat - 48))
      have hlt1 : acc * 10 + (c.toNat - 48) < 2 ^ 63 := lt_of_le_of_lt hge hlt
      have hcast : ((acc * 10 + (c.toNat - 48) : Nat) : Int)
          = (acc : Int) * 10 + ((c.toNat : Int) - 48) := by
        push_cast [h48]
        ring
      have hlt1i : (acc : Int) * 10 + ((c.toNat : Int) - 48) < 2 ^ 63 := by
        rw [← hcast]
        exact_mod_cast hlt1
      have h481 : (48 : Int) ≤ (c.toNat : Int) := by exact_mod_cast h48
      unfold strToLongAux
      rw [if_pos h0]
      rw [wrap64_eq_of_small ((acc : Int) * 10) (by positivity) (by omega)]
      rw [wrap64_eq_of_small _ (by omega) hlt1i]
      rw [← hcast]
      exact ih _ hall.2 hlt

theorem strToLongAux_invalid (cs : List Char) (acc : Int)
    (hd : cs.all (fun c => decide ('0' ≤ c ∧ c ≤ '9')) = false) :
    strToLongAux cs acc = -1 := by
  induction cs generalizing acc with
  | nil => simp at hd
  | cons c rest ih =>
      rw [List.all_cons] at hd
      by_cases h0 : ('0' : Char) ≤ c ∧ c ≤ '9'
      · rw [decide_eq_true h0, Bool.true_and] at hd
        simp only [strToLongAux, if_pos h0]
        exact ih _ hd
      · simp [strToLongAux, if_neg h0]

theorem req_get_content_length_of_none (req : ReqModel)
    (h : req_get_header_value req "Content-Length" = none) :
    req_get_content_length req = -1 := by
  unfold req_get_content_length
  rw [h]

theorem req_get_content_length_of_some (req : ReqModel) (v : String)
    (h : req_get_header_value req "Content-Length" = some v) :
    req_get_content_length req = if strToLong v < 0 then -2 else strToLong v := by
  unfold req_get_content_length
  rw [h]

theorem strToLong_of_not_decimal (v : String) (hd : isDecimalNat v = false) :
    strToLong v = -1 :=
  strToLongAux_invalid v.data 0 (by simpa [isDecimalNat] using hd)

theorem strToLong_eq_of_small (v : String) (hd : isDecimalNat v = true)
    (hlt : decValue v.data < 2 ^ 63) :
    strToLong v = (decValue v.data : Int) :=
  strToLongAux_eq_of_small v.data 0 (by simpa [isDecimalNat] using hd) hlt

/-- A missing header or a value with a non-digit makes the code's
Content-Length result negative. -/
theorem content_length_neg_of_bad (req : ReqModel)
    (hbad : req_get_header_value req "Content-Length" = none ∨
      ∃ v, req_get_header_value req "Content-Length" = some v ∧ isDecimalNat v = false) :
    req_get_content_length req < 0 := by
  rcases hbad with h | ⟨v, hv, hvd⟩
  · rw [req_get_content_length_of_none req h]
    norm_num
  · rw [req_get_content_length_of_some req v hv, strToLong_of_not_decimal v hvd]
    norm_num

/-- An all-digit value below 2^63 parses, without wrapping, to its
mathematical value. -/
theorem content_length_of_small (req : ReqModel) (v : String)
    (hv : req_get_header_value req "Content-Length" = some v)
    (hd : isDecimalNat v = true) (hlt : decValue v.data < 2 ^ 63) :
    req_get_content_length req = (decValue v.data : Int) := by
  rw [req_get_content_length_of_some req v hv, strToLong_eq_of_small v hd hlt,
    if_neg (not_lt.mpr (Int.natCast_nonneg _))]

/-! ## Claims C5 and C10: PUT status mapping -/

/-- Shared helper: a missing or non-numeric Content-Length makes handle_put
return 400 with no filesystem operations. -/
theorem handle_put_invalid_cl (req : ReqModel) (openRes : Option Errno)
    (hbad : req_get_header_value req "Content-Length" = none ∨
      ∃ v, req_get_header_value req "Content-Length" = some v ∧ isDecimalNat v = false) :
    handle_put req openRes = ({ responded := false, status := 400 }, []) := by
  have hneg : req_get_content_length req < 0 := content_length_neg_of_bad req hbad
  simp [handle_put, if_pos hneg]

/-- C5 as amended: a missing or non-numeric Content-Length yields 400; for
a non-negative decimal value below 2^63 (representable in the ssize_t
accumulator, so the parse does not overflow), a successful truncating open
yields 200, ENOENT leads to creat with mode 0666 (438) and 201, EISDIR,
EACCES, ENAMETOOLONG, EPERM and EROFS map to 403, and every other open
error maps to 500.  Decimal values from 2^63 up overflow the C accumulator
and can be rejected with 400 instead (see the counterexample). -/
theorem claim_C5 (req : ReqModel) (openRes : Option Errno) :
    ((req_get_header_value req "Content-Length" = none ∨
        ∃ v, req_get_header_value req "Content-Length" = some v ∧ isDecimalNat v = false) →
      handle_put req openRes = ({ responded := false, status := 400 }, [])) ∧
    (∀ v, req_get_header_value req "Content-Length" = some v → isDecimalNat v = true →
      decValue v.data < 2 ^ 63 →
      ((openRes = none →
          (handle_put req openRes).1 = { responded := false, status := 200 }) ∧
       (openRes = some Errno.ENOENT →
          (handle_put req openRes).1 = { responded := false, status := 201 } ∧
          FsOp.creatFile req.uri 438 ∈ (handle_put req openRes).2) ∧
       (∀ e, openRes = some e →
          (e = Errno.EISDIR ∨ e = Errno.EACCES ∨ e = Errno.ENAMETOOLONG ∨
            e = Errno.EPERM ∨ e = Errno.EROFS) →
          (handle_put req openRes).1 = { responded := false, status := 403 }) ∧
       (∀ e, openRes = some e → e ≠ Errno.ENOENT → e ≠ Errno.EISDIR → e ≠ Errno.EACCES →
          e ≠ Errno.ENAMETOOLONG → e ≠ Errno.EPERM → e ≠ Errno.EROFS →
          (handle_put req openRes).1 = { responded := false, status := 500 }))) := by
  constructor
  · exact handle_put_invalid_cl req openRes
  · intro v hv hvd hvlt
    have hok : ¬ req_get_content_length req < 0 := by
      rw [content_length_of_small req v hv hvd hvlt]
      exact not_lt.mpr (Int.natCast_nonneg _)
    refine ⟨?_, ?_, ?_, ?_⟩
    · rintro rfl
      simp [handle_put, if_neg hok]
    · rintro rfl
      refine ⟨by simp [handle_put, if_neg hok], ?_⟩
      simp [handle_put, if_neg hok]
    · rintro e rfl he
      rcases he with rfl | rfl | rfl | rfl | rfl <;> simp [handle_put, if_neg hok]
    · rintro e rfl h1 h2 h3 h4 h5 h6
      cases e <;> first
        | exact absurd rfl h1
        | exact absurd rfl h2
        | exact absurd rfl h3
        | exact absurd rfl h4
        | exact absurd rfl h5
        | exact absurd rfl h6
        | simp [handle_put, if_neg hok]

/-- Witness for C5 at a concrete request and a successful open. -/
theorem claim_C5_witness :
    req_get_header_value reqPutW "Content-Length" = some "5" ∧
    isDecimalNat "5" = true ∧
    decValue "5".data < 2 ^ 63 ∧
    (handle_put reqPutW none).1 = { responded := false, status := 200 } :=
  ⟨by decide, by decide, by decide,
    ((claim_C5 reqPutW none).2 "5" (by decide) (by decide) (by decide)).1 rfl⟩

/-- C5 as stated is false on the code: 9223372036854775808 (that is, 2^63)
is a non-negative decimal integer and the open succeeds, yet handle_put
returns 400 with no filesystem operation, because the ssize_t accumulator
of _str_to_long wraps to -2^63 on the final addition. -/
theorem claim_C5_counterexample :
    isDecimalNat "9223372036854775808" = true ∧
    req_get_header_value reqPutOvf "Content-Length" = some "9223372036854775808" ∧
    handle_put reqPutOvf none = ({ responded := false, status := 400 }, []) ∧
    ¬ (handle_put reqPutOvf none).1 = { responded := false, status := 200 } :=
  ⟨by decide, by decide, by decide, by decide⟩

/-- C10: when the Content-Length header is missing or invalid, handle_put
returns 400 having performed no filesystem operation at all (no open,
creat, truncate or write), so the target is untouched. -/
theorem claim_C10 (req : ReqModel) (openRes : Option Errno)
    (hbad : req_get_header_value req "Content-Length" = none ∨
      ∃ v, req_get_header_value req "Content-Length" = some v ∧ isDecimalNat v = false) :
    (handle_put req openRes).1 = { responded := false, status := 400 } ∧
    (handle_put req openRes).2 = [] := by
  rw [handle_put_invalid_cl req openRes hbad]
  exact ⟨rfl, rfl⟩

/-- Witness for C10 at a concrete request with no Content-Length header. -/
theorem claim_C10_witness :
    (req_get_header_value reqPutNoCl "Content-Length" = none) ∧
    (handle_put reqPutNoCl none).1 = { responded := false, status := 400 } ∧
    (handle_put reqPutNoCl none).2 = [] :=
  ⟨by decide, claim_C10 reqPutNoCl none (Or.inl (by decide))⟩

/-! ## Claim C6: GET status mapping and direct streaming -/

/-- C6: when opening the URI fails, handle_get maps EACCES, ENAMETOOLONG,
EPERM, EROFS to 403, ENOENT to 404 and everything else to 500; an opened
directory yields 403; otherwise the handler streams an HTTP/1.1 200 OK
reply itself whose Content-Length equals the file size, and since it
returns responded = true the dispatcher emits no canned response. -/
theorem claim_C6 (openRes : Option Errno) (statRes : Except Errno StatInfo) :
    ((openRes = some Errno.EACCES ∨ openRes = some Errno.ENAMETOOLONG ∨
        openRes = some Errno.EPERM ∨ openRes = some Errno.EROFS) →
      handle_get openRes statRes = ({ responded := false, status := 403 }, none)) ∧
    (openRes = some Errno.ENOENT →
      handle_get openRes statRes = ({ responded := false, status := 404 }, none)) ∧
    (∀ e, openRes = some e → e ≠ Errno.EACCES → e ≠ Errno.ENAMETOOLONG →
      e ≠ Errno.EPERM → e ≠ Errno.EROFS → e ≠ Errno.ENOENT →
      handle_get openRes statRes = ({ responded := false, status := 500 }, none)) ∧
    (∀ st, openRes = none → statRes = Except.ok st → st.isDir = true →
      handle_get openRes statRes = ({ responded := false, status := 403 }, none)) ∧
    (∀ st, openRes = none → statRes = Except.ok st → st.isDir = false →
      (handle_get openRes statRes).1 = { responded := true, status := 200 } ∧
      (handle_get openRes statRes).2
        = some { statusLine := "HTTP/1.1 200 OK", contentLength := st.size,
                 bodyBytes := st.size } ∧
      dispatcherSendsCanned (handle_get openRes statRes).1 = false) := by
  refine ⟨?_, ?_, ?_, ?_, ?_⟩
  · rintro (rfl | rfl | rfl | rfl) <;> simp [handle_get, getOpenErrStatus]
  · rintro rfl
    simp [handle_get, getOpenErrStatus]
  · rintro e rfl h1 h2 h3 h4 h5
    cases e <;> first
      | exact absurd rfl h1
      | exact absurd rfl h2
      | exact absurd rfl h3
      | exact absurd rfl h4
      | exact absurd rfl h5
      | simp [handle_get, getOpenErrStatus]
  · rintro st rfl rfl hdir
    simp [handle_get, hdir]
  · rintro st rfl rfl hdir
    simp [handle_get, hdir, dispatcherSendsCanned]

/-- Witness for C6 at concrete inputs: a missing file maps to 404, and a
successful open of a 5-byte regular file streams 200 with Content-Length
5 and no canned response. -/
theorem claim_C6_witness :
    handle_get (some Errno.ENOENT) (Except.ok { isDir := false, size := 5 })
      = ({ responded := false, status := 404 }, none) ∧
    (handle_get none (Except.ok { isDir := false, size := 5 })).1
      = { responded := true, status := 200 } ∧
    (handle_get none (Except.ok { isDir := false, size := 5 })).2
      = some { statusLine := "HTTP/1.1 200 OK", contentLength := 5, bodyBytes := 5 } ∧
    dispatcherSendsCanned
      (handle_get none (Except.ok { isDir := false, size := 5 })).1 = false := by
  refine ⟨?_, ?_⟩
  · exact (claim_C6 (some Errno.ENOENT) (Except.ok { isDir := false, size := 5 })).2.1 rfl
  · exact (claim_C6 none (Except.ok { isDir := false, size := 5 })).2.2.2.2
      { isDir := false, size := 5 } rfl rfl rfl

/-! ## Claim C3: HTTP version handling -/

/-- C3 evaluated on the code: for the request GET /a HTTP/0.9 with a
Request-Id header (the spec scenario, target file missing), the asgn2
validator does return 505, but the asgn4 handle_connection performs the
GET semantics and returns the GET handler's status: the connection ends
with status 404, not 505, and the handler-completion event for 404 appears
in its trace.  The asgn4 server contains no version check at all. -/
theorem claim_C3_code_behaviour :
    validate_request req505 = 505 ∧
    (∀ (statRes : Except Errno StatInfo) (putRes : Response),
      (handle_connection true req505 (handle_get (some Errno.ENOENT) statRes).1 putRes).1
        = { responded := false, status := 404 } ∧
      (handle_connection true req505 (handle_get (some Errno.ENOENT) statRes).1 putRes).1.status
        ≠ 505 ∧
      ConnEvent.handlerDone 404
        ∈ (handle_connection true req505 (handle_get (some Errno.ENOENT) statRes).1 putRes).2) := by
  constructor
  · decide
  · intro statRes putRes
    have hget : (handle_get (some Errno.ENOENT) statRes).1
        = { responded := false, status := 404 } := by
      simp [handle_get, getOpenErrStatus]
    refine ⟨?_, ?_, ?_⟩ <;>
      simp [handle_connection, hget, req505, req_get_header_value, strCaseEq,
        charLowerNat]

/-! ## Claim C7: audit record placement -/

/-- C7: for every parsed request with a Request-Id, the asgn4 dispatcher
emits exactly one audit line, of the form METHOD,/URI,STATUS,REQUEST_ID
with the request's id and the handler's status, and the emission sits
after the handler-completion event and before the lock-release event. -/
theorem claim_C7 (req : ReqModel) (getRes putRes : Response) (reqId : String)
    (hid : req_get_header_value req "Request-Id" = some reqId) :
    (req.method = Method.GET →
      ((handle_connection true req getRes putRes).2.countP isAuditEvent = 1 ∧
       (handle_connection true req getRes putRes).2.get? 1
         = some (ConnEvent.handlerDone getRes.status) ∧
       (handle_connection true req getRes putRes).2.get? 2
         = some (ConnEvent.audit
             ("GET" ++ ",/" ++ req.uri ++ "," ++ toString getRes.status ++ "," ++ reqId)) ∧
       (handle_connection true req getRes putRes).2.get? 3
         = some (ConnEvent.lockRelease req.uri))) ∧
    (req.method = Method.PUT →
      ((handle_connection true req getRes putRes).2.countP isAuditEvent = 1 ∧
       (handle_connection true req getRes putRes).2.get? 1
         = some (ConnEvent.handlerDone putRes.status) ∧
       (handle_connection true req getRes putRes).2.get? 2
         = some (ConnEvent.audit
             ("PUT" ++ ",/" ++ req.uri ++ "," ++ toString putRes.status ++ "," ++ reqId)) ∧
       (handle_connection true req getRes putRes).2.get? 3
         = some (ConnEvent.lockRelease req.uri))) := by
  constructor
  · intro hm
    simp [handle_connection, hid, hm, auditLine, isAuditEvent, List.countP,
      List.countP.go]
  · intro hm
    simp [handle_connection, hid, hm, auditLine, isAuditEvent, List.countP,
      List.countP.go]

/-- Witness for C7 at a concrete GET request. -/
theorem claim_C7_witness :
    req_get_header_value reqGetW "Request-Id" = some "3" ∧
    reqGetW.method = Method.GET ∧
    ((handle_connection true reqGetW { responded := true, status := 200 }
        { responded := false, status := 500 }).2.countP isAuditEvent = 1 ∧
     (handle_connection true reqGetW { responded := true, status := 200 }
        { responded := false, status := 500 }).2.get? 1
       = some (ConnEvent.handlerDone 200) ∧
     (handle_connection true reqGetW { responded := true, status := 200 }
        { responded := false, status := 500 }).2.get? 2
       = some (ConnEvent.audit ("GET" ++ ",/" ++ reqGetW.uri ++ "," ++ toString 200 ++ "," ++ "3")) ∧
     (handle_connection true reqGetW { responded := true, status := 200 }
        { responded := false, status := 500 }).2.get? 3
       = some (ConnEvent.lockRelease reqGetW.uri)) :=
  ⟨by decide, rfl,
    (claim_C7 reqGetW { responded := true, status := 200 }
      { responded := false, status := 500 } "3" (by decide)).1 rfl⟩

/-! ## Claims C4 and C9: per-URI lock registry -/

/-- C4: the linear scan of find_file_lock cannot fall through when every
occupied slot has at least one user and the total user count is below the
capacity (each of the T workers holds at most one entry and the caller
holds none, so at most T - 1 < T slots are in use): it always returns an
entry, either a byte-exact match or a freshly claimed free slot. -/
theorem claim_C4 (slots : List FileLock) (uri : String)
    (hocc : ∀ s, s ∈ slots → s.filename ≠ none → 1 ≤ s.users)
    (hsum : (slots.map (fun s => s.users)).sum < slots.length) :
    find_file_lock slots uri ≠ none := by
  induction slots with
  | nil => simp at hsum
  | cons s rest ih =>
      cases hf : s.filename with
      | none => simp [find_file_lock, hf]
      | some f =>
          by_cases hfu : f = uri
          · simp [find_file_lock, hf, hfu]
          · have hs1 : 1 ≤ s.users :=
              hocc s (by simp) (by simp [hf])
            have hrec : find_file_lock rest uri ≠ none := by
              refine ih (fun t ht hn => hocc t (by simp [ht]) hn) ?_
              simp only [List.map_cons, List.sum_cons, List.length_cons] at hsum
              omega
            simp only [find_file_lock, hf, if_neg hfu]
            intro hmap
            rw [Option.map_eq_none'] at hmap
            exact hrec hmap

/-- Witness for C4 on a two-slot registry with one slot in use. -/
theorem claim_C4_witness :
    find_file_lock [{ filename := some "b", users := 1 },
      { filename := none, users := 0 }] "a" ≠ none := by
  refine claim_C4 _ "a" ?_ ?_
  · intro s hs hn
    simp only [List.mem_cons, List.not_mem_nil, or_false] at hs
    rcases hs with rfl | rfl
    · exact le_refl 1
    · exact absurd rfl hn
  · decide

/-- find_file_lock claims the first free slot when no earlier slot matches:
if every slot before index i is occupied by a different path and slot i is
free, the scan returns index i with the slot claimed at users = 1. -/
theorem find_file_lock_claims_free :
    ∀ (slots : List FileLock) (uri : String) (i : Nat),
      (∀ j, j < i → ∃ sl, slots.get? j = some sl ∧
        sl.filename ≠ none ∧ sl.filename ≠ some uri) →
      (∃ sl, slots.get? i = some sl ∧ sl.filename = none) →
      find_file_lock slots uri
        = some (i, slots.set i { filename := some uri, users := 1 }) := by
  intro slots
  induction slots with
  | nil =>
      intro uri i _ hfree
      rcases hfree with ⟨sl, hsl, _⟩
      simp at hsl
  | cons s rest ih =>
      intro uri i hocc hfree
      cases i with
      | zero =>
          rcases hfree with ⟨sl, hsl, hn⟩
          simp only [List.get?] at hsl
          injection hsl with hsl
          subst hsl
          simp [find_file_lock, hn]
      | succ j =>
          rcases hocc 0 (Nat.succ_pos j) with ⟨sl, hsl, hno, hne⟩
          simp only [List.get?] at hsl
          injection hsl with hsl
          subst hsl
          cases hf : s.filename with
          | none => exact absurd hf hno
          | some f =>
              have hfu : f ≠ uri := by
                intro h
                rw [h] at hf
                exact hne hf
              have hrec := ih uri j
                (fun k hk => hocc (k + 1) (Nat.succ_lt_succ hk))
                (by rcases hfree with ⟨sl, hsl, hn⟩; exact ⟨sl, hsl, hn⟩)
              simp [find_file_lock, hf, if_neg hfu, hrec, List.set]

/-- find_file_lock bumps the user count of the first matching slot when no
earlier slot is free or matches. -/
theorem find_file_lock_bumps_match :
    ∀ (slots : List FileLock) (uri : String) (i : Nat) (u : Nat),
      (∀ j, j < i → ∃ sl, slots.get? j = some sl ∧
        sl.filename ≠ none ∧ sl.filename ≠ some uri) →
      slots.get? i = some { filename := some uri, users := u } →
      find_file_lock slots uri
        = some (i, slots.set i { filename := some uri, users := u + 1 }) := by
  intro slots
  induction slots with
  | nil =>
      intro uri i u _ hmatch
      simp at hmatch
  | cons s rest ih =>
      intro uri i u hocc hmatch
      cases i with
      | zero =>
          simp only [List.get?] at hmatch
          injection hmatch with hmatch
          subst hmatch
          simp [find_file_lock, List.set]
      | succ j =>
          rcases hocc 0 (Nat.succ_pos j) with ⟨sl, hsl, hno, hne⟩
          simp only [List.get?] at hsl
          injection hsl with hsl
          subst hsl
          cases hf : s.filename with
          | none => exact absurd hf hno
          | some f =>
              have hfu : f ≠ uri := by
                intro h
                rw [h] at hf
                exact hne hf
              have hrec := ih uri j u
                (fun k hk => hocc (k + 1) (Nat.succ_lt_succ hk)) hmatch
              simp [find_file_lock, hf, if_neg hfu, hrec, List.set]

/-- A registry containing a free slot never makes find_file_lock fall
through. -/
theorem find_file_lock_of_free_slot :
    ∀ (slots : List FileLock) (uri : String) (i : Nat),
      (∃ sl, slots.get? i = some sl ∧ sl.filename = none) →
      find_file_lock slots uri ≠ none := by
  intro slots
  induction slots with
  | nil =>
      intro uri i hfree
      rcases hfree with ⟨sl, hsl, _⟩
      simp at hsl
  | cons s rest ih =>
      intro uri i hfree
      cases hf : s.filename with
      | none => simp [find_file_lock, hf]
      | some f =>
          by_cases hfu : f = uri
          · simp [find_file_lock, hf, hfu]
          · cases i with
            | zero =>
                rcases hfree with ⟨sl, hsl, hn⟩
                simp only [List.get?] at hsl
                injection hsl with hsl
                subst hsl
                exact absurd hf (by rw [hn]; intro h; cases h)
            | succ j =>
                have hrec := ih uri j
                  (by rcases hfree with ⟨sl, hsl, hn⟩; exact ⟨sl, hsl, hn⟩)
                simp only [find_file_lock, hf, if_neg hfu]
                intro hmap
                rw [Option.map_eq_none'] at hmap
                exact hrec hmap

/-- C9: acquiring the same URI twice returns the same registry slot, the
second acquire bumping the user count to 2; releasing twice drops the
count back through 1 to 0, frees the path (slot becomes NULL) and leaves
the registry usable for any further URI. -/
theorem claim_C9 (slots : List FileLock) (s : String) (i : Nat)
    (hocc : ∀ j, j < i → ∃ sl, slots.get? j = some sl ∧ sl.filename ≠ none)
    (hfree : ∃ sl, slots.get? i = some sl ∧ sl.filename = none)
    (hnomatch : ∀ sl, sl ∈ slots → sl.filename ≠ some s) :
    find_file_lock slots s
      = some (i, slots.set i { filename := some s, users := 1 }) ∧
    find_file_lock (slots.set i { filename := some s, users := 1 }) s
      = some (i, slots.set i { filename := some s, users := 2 }) ∧
    release_file_lock (slots.set i { filename := some s, users := 2 }) i
      = slots.set i { filename := some s, users := 1 } ∧
    release_file_lock (slots.set i { filename := some s, users := 1 }) i
      = slots.set i { filename := none, users := 0 } ∧
    (slots.set i { filename := none, users := 0 }).get? i
      = some { filename := none, users := 0 } ∧
    (∀ uri2, find_file_lock (slots.set i { filename := none, users := 0 }) uri2 ≠ none) := by
  have hilen : i < slots.length := by
    rcases hfree with ⟨sl, hsl, _⟩
    exact List.get?_eq_some.mp hsl |>.1
  have hocc2 : ∀ j, j < i → ∃ sl, slots.get? j = some sl ∧
      sl.filename ≠ none ∧ sl.filename ≠ some s := by
    intro j hj
    rcases hocc j hj with ⟨sl, hsl, hn⟩
    exact ⟨sl, hsl, hn, hnomatch sl (List.get?_mem hsl)⟩
  have h1 := find_file_lock_claims_free slots s i hocc2 hfree
  have hocc3 : ∀ j, j < i →
      ∃ sl, (slots.set i { filename := some s, users := 1 }).get? j = some sl ∧
        sl.filename ≠ none ∧ sl.filename ≠ some s := by
    intro j hj
    rcases hocc2 j hj with ⟨sl, hsl, hn, hne⟩
    exact ⟨sl, by rw [List.get?_set_ne _ _ (by omega)]; exact hsl, hn, hne⟩
  have h2 := find_file_lock_bumps_match (slots.set i { filename := some s, users := 1 })
    s i 1 hocc3 (by rw [List.get?_set_eq_of_lt _ (by simpa using hilen)])
  rw [List.set_set] at h2
  have hget2 : (slots.set i { filename := some s, users := 2 }).get? i
      = some { filename := some s, users := 2 } :=
    List.get?_set_eq_of_lt _ (by simpa using hilen)
  have h3 : release_file_lock (slots.set i { filename := some s, users := 2 }) i
      = slots.set i { filename := some s, users := 1 } := by
    unfold release_file_lock
    rw [hget2]
    simp [List.set_set]
  have hget1 : (slots.set i { filename := some s, users := 1 }).get? i
      = some { filename := some s, users := 1 } :=
    List.get?_set_eq_of_lt _ (by simpa using hilen)
  have h4 : release_file_lock (slots.set i { filename := some s, users := 1 }) i
      = slots.set i { filename := none, users := 0 } := by
    unfold release_file_lock
    rw [hget1]
    simp [List.set_set]
  refine ⟨h1, h2, h3, h4, List.get?_set_eq_of_lt _ (by simpa using hilen), ?_⟩
  intro uri2
  exact find_file_lock_of_free_slot _ uri2 i
    ⟨{ filename := none, users := 0 }, List.get?_set_eq_of_lt _ (by simpa using hilen), rfl⟩

/-- Witness for C9 on a one-slot registry and the URI foo. -/
theorem claim_C9_witness :
    find_file_lock [{ filename := none, users := 0 }] "foo"
      = some (0, [{ filename := some "foo", users := 1 }]) ∧
    find_file_lock [{ filename := some "foo", users := 1 }] "foo"
      = some (0, [{ filename := some "foo", users := 2 }]) ∧
    release_file_lock [{ filename := some "foo", users := 2 }] 0
      = [{ filename := some "foo", users := 1 }] ∧
    release_file_lock [{ filename := some "foo", users := 1 }] 0
      = [{ filename := none, users := 0 }] := by
  have h := claim_C9 [{ filename := none, users := 0 }] "foo" 0
    (fun j hj => absurd hj (Nat.not_lt_zero j))
    ⟨{ filename := none, users := 0 }, rfl, rfl⟩
    (by intro sl hsl
        simp only [List.mem_cons, List.not_mem_nil, or_false] at hsl
        subst hsl
        intro h
        cases h)
  exact ⟨h.1, h.2.1, h.2.2.1, h.2.2.2.1⟩

/-! ## Claim C8: queue FIFO -/

theorem queue_new_rep (α : Type) (size : Nat) (hpos : 0 < size) :
    ∃ q0, queue_new α size = some q0 ∧ q0.size = size ∧ QueueRep q0 [] := by
  refine ⟨_, by rw [queue_new, if_neg (by omega)], rfl, ?_⟩
  refine ⟨hpos, by simp, rfl, by simp, hpos, by simp, ?_⟩
  intro k hk
  simp at hk

theorem queue_push_rep {α : Type} (q : CQueue α) (c : List α) (x : α)
    (hrep : QueueRep q c) (hlt : c.length < q.size) :
    ∃ q2, queue_push q x = some q2 ∧ q2.size = q.size ∧ QueueRep q2 (c ++ [x]) := by
  obtain ⟨hpos, hbuf, hrd, hwr, htail, hhead, hcont⟩ := hrep
  have hws : ¬ q.wrSem = 0 := by omega
  refine ⟨({ q with
             buf := q.buf.set q.head (some x),
             head := (q.head + 1) % q.size,
             rdSem := q.rdSem + 1,
             wrSem := q.wrSem - 1 }), by rw [queue_push, if_neg hws], rfl, ?_⟩
  have hheadlt : q.head < q.buf.length := by
    rw [hbuf, hhead]
    exact Nat.mod_lt _ hpos
  refine ⟨hpos, by simpa using hbuf, by simp [hrd], by simp; omega, htail, ?_, ?_⟩
  · show (q.head + 1) % q.size = (q.tail + (c ++ [x]).length) % q.size
    rw [hhead, List.length_append, List.length_singleton, Nat.mod_add_mod,
      ← Nat.add_assoc]
  · intro k hk
    simp only [List.length_append, List.length_singleton] at hk
    by_cases hkc : k < c.length
    · have hne : q.head ≠ (q.tail + k) % q.size := by
        rw [hhead]
        intro he
        have hmod : c.length % q.size = k % q.size :=
          Nat.ModEq.add_left_cancel' q.tail he
        rw [Nat.mod_eq_of_lt hlt, Nat.mod_eq_of_lt (lt_trans hkc hlt)] at hmod
        omega
      show (q.buf.set q.head (some x)).get? ((q.tail + k) % q.size) = _
      rw [List.get?_set_ne _ _ hne, hcont k hkc]
      congr 1
      congr 1
      rw [List.get_eq_getElem, List.get_eq_getElem, List.getElem_append_left]
    · have hkc2 : k = c.length := by omega
      subst hkc2
      show (q.buf.set q.head (some x)).get? ((q.tail + c.length) % q.size) = _
      rw [← hhead, List.get?_set_eq_of_lt _ hheadlt]
      congr 2
      rw [List.get_eq_getElem, List.getElem_append_right (le_refl c.length)]
      simp

theorem queue_pop_rep {α : Type} (q : CQueue α) (y : α) (c : List α)
    (hrep : QueueRep q (y :: c)) :
    ∃ q2, queue_pop q = some (q2, some y) ∧ q2.size = q.size ∧ QueueRep q2 c := by
  obtain ⟨hpos, hbuf, hrd, hwr, htail, hhead, hcont⟩ := hrep
  have hrs : ¬ q.rdSem = 0 := by
    rw [hrd]
    simp
  have hv : q.buf.get? q.tail = some (some y) := by
    have h0 := hcont 0 (by simp)
    rw [Nat.add_zero, Nat.mod_eq_of_lt htail] at h0
    simpa using h0
  refine ⟨({ q with
             tail := (q.tail + 1) % q.size,
             rdSem := q.rdSem - 1,
             wrSem := q.wrSem + 1 }), ?_, rfl, ?_⟩
  · rw [queue_pop, if_neg hrs, hv]
    rfl
  rw [List.length_cons] at hrd
  refine ⟨hpos, hbuf, ?_, ?_, Nat.mod_lt _ hpos, ?_, ?_⟩
  · show q.rdSem - 1 = c.length
    omega
  · show q.wrSem + 1 + (q.rdSem - 1) = q.size
    omega
  · show q.head = ((q.tail + 1) % q.size + c.length) % q.size
    rw [hhead, Nat.mod_add_mod, List.length_cons]
    congr 1
    omega
  · intro k hk
    show q.buf.get? (((q.tail + 1) % q.size + k) % q.size) = _
    rw [Nat.mod_add_mod]
    have h1 := hcont (k + 1) (by simpa using Nat.succ_lt_succ hk)
    rw [show q.tail + 1 + k = q.tail + (k + 1) by omega]
    rw [h1]
    rfl

theorem pushAll_rep {α : Type} :
    ∀ (xs : List α) (q : CQueue α) (c : List α),
      QueueRep q c → c.length + xs.length ≤ q.size →
      ∃ q2, pushAll q xs = some q2 ∧ q2.size = q.size ∧ QueueRep q2 (c ++ xs) := by
  intro xs
  induction xs with
  | nil =>
      intro q c hrep _
      exact ⟨q, rfl, rfl, by simpa using hrep⟩
  | cons x xs ih =>
      intro q c hrep hlen
      obtain ⟨q1, hpush, hsz, hrep1⟩ :=
        queue_push_rep q c x hrep (by simp at hlen; omega)
      obtain ⟨q2, hrec, hsz2, hrep2⟩ := ih q1 (c ++ [x]) hrep1
        (by simp [hsz]; simp at hlen; omega)
      refine ⟨q2, ?_, by rw [hsz2, hsz], by simpa using hrep2⟩
      simp [pushAll, hpush, hrec]

theorem popAll_rep {α : Type} :
    ∀ (c : List α) (q : CQueue α), QueueRep q c →
      ∃ q2, popAll q c.length = some (q2, c) ∧ QueueRep q2 [] := by
  intro c
  induction c with
  | nil =>
      intro q hrep
      exact ⟨q, rfl, hrep⟩
  | cons y c ih =>
      intro q hrep
      obtain ⟨q1, hpop, _, hrep1⟩ := queue_pop_rep q y c hrep
      obtain ⟨q2, hrec, hrep2⟩ := ih q1 hrep1
      refine ⟨q2, ?_, hrep2⟩
      simp [popAll, hpop, hrec]

/-- C8: for any element list xs that fits in a queue of capacity size,
pushing all of xs and then popping xs.length times succeeds, the pops
return exactly xs in push order (FIFO through the circular buffer), and in
particular the multiset of popped elements equals the multiset pushed. -/
theorem claim_C8 {α : Type} (size : Nat) (hpos : 0 < size) (xs : List α)
    (hlen : xs.length ≤ size) :
    ∃ q0 q1 q2 out,
      queue_new α size = some q0 ∧
      pushAll q0 xs = some q1 ∧
      popAll q1 xs.length = some (q2, out) ∧
      out = xs ∧
      Multiset.ofList out = Multiset.ofList xs := by
  obtain ⟨q0, hnew, hsz0, hrep0⟩ := queue_new_rep α size hpos
  obtain ⟨q1, hpush, _, hrep1⟩ := pushAll_rep xs q0 [] hrep0 (by simpa [hsz0] using hlen)
  obtain ⟨q2, hpop, _⟩ := popAll_rep xs q1 (by simpa using hrep1)
  exact ⟨q0, q1, q2, xs, hnew, hpush, hpop, rfl, rfl⟩

/-- Witness for C8: three pushes then three pops on a capacity-3 queue
return the pushed values in order. -/
theorem claim_C8_witness :
    0 < 3 ∧ ([10, 20, 20] : List Nat).length ≤ 3 ∧
    (∃ q0 q1 q2 out,
      queue_new Nat 3 = some q0 ∧
      pushAll q0 [10, 20, 20] = some q1 ∧
      popAll q1 ([10, 20, 20] : List Nat).length = some (q2, out) ∧
      out = [10, 20, 20] ∧
      Multiset.ofList out = Multiset.ofList [10, 20, 20]) :=
  ⟨by decide, by decide, claim_C8 3 (by decide) [10, 20, 20] (by decide)⟩

/-! ## Claim C1: rwlock mutual exclusion -/

theorem count_set_add (l : List PC) (i : Nat) (a b c : PC) (h : l.get? i = some a) :
    (l.set i b).count c + (if a = c then 1 else 0)
      = l.count c + (if b = c then 1 else 0) := by
  induction l generalizing i with
  | nil => simp at h
  | cons x xs ih =>
      cases i with
      | zero =>
          simp only [List.get?] at h
          injection h with h
          subst h
          simp only [List.set, List.count_cons, beq_iff_eq]
          split_ifs <;> omega
      | succ j =>
          simp only [List.get?] at h
          have hih := ih j h
          simp only [List.set, List.count_cons, beq_iff_eq]
          split_ifs at hih ⊢ <;> omega

theorem count_set_of_ne (l : List PC) (i : Nat) (a b c : PC) (h : l.get? i = some a)
    (ha : a ≠ c) (hb : b ≠ c) : (l.set i b).count c = l.count c := by
  have hadd := count_set_add l i a b c h
  rw [if_neg ha, if_neg hb] at hadd
  omega

theorem count_set_to (l : List PC) (i : Nat) (a b c : PC) (h : l.get? i = some a)
    (ha : a ≠ c) (hb : b = c) : (l.set i b).count c = l.count c + 1 := by
  have hadd := count_set_add l i a b c h
  rw [if_neg ha, if_pos hb] at hadd
  omega

theorem count_set_from (l : List PC) (i : Nat) (a b c : PC) (h : l.get? i = some a)
    (ha : a = c) (hb : b ≠ c) : (l.set i b).count c = l.count c - 1 := by
  have hadd := count_set_add l i a b c h
  rw [if_pos ha, if_neg hb] at hadd
  omega

theorem count_pos_of_get? (l : List PC) (i : Nat) (a : PC) (h : l.get? i = some a) :
    0 < l.count a :=
  List.count_pos_iff.mpr (List.get?_mem h)

/-- Every atomic step of any policy preserves the gate-token invariant. -/
theorem rwInv_step {s s2 : RwState} {a : Act} (hs : RwStep s a s2) (hinv : rwInv s) :
    rwInv s2 := by
  obtain ⟨hA, hB⟩ := hinv
  cases hs <;>
    first
    | -- steps that touch neither pc reading nor pc writing nor the
      -- readers_holding / write_lock fields
      (unfold rwInv
       dsimp only
       rw [count_set_of_ne _ _ _ _ PC.reading (by assumption) (by decide) (by decide),
           count_set_of_ne _ _ _ _ PC.writing (by assumption) (by decide) (by decide)]
       exact ⟨hA, hB⟩)
    | -- a reader enters pc reading (joining directly or taking the gate)
      (unfold rwInv
       dsimp only
       rw [count_set_to _ _ _ _ PC.reading (by assumption) (by decide) rfl,
           count_set_of_ne _ _ _ _ PC.writing (by assumption) (by decide) (by decide)]
       constructor
       · omega
       · split_ifs at hB ⊢ <;> omega)
    | -- a writer takes the gate and enters pc writing
      (unfold rwInv
       dsimp only
       rw [count_set_of_ne _ _ _ _ PC.reading (by assumption) (by decide) (by decide),
           count_set_to _ _ _ _ PC.writing (by assumption) (by decide) rfl]
       constructor
       · exact hA
       · split_ifs at hB ⊢ <;> omega)
    | -- a reader leaves pc reading (reader_unlock)
      (unfold rwInv
       dsimp only
       have hpos := count_pos_of_get? _ _ _ (by assumption)
       rw [count_set_from _ _ _ _ PC.reading (by assumption) rfl (by decide),
           count_set_of_ne _ _ _ _ PC.writing (by assumption) (by decide) (by decide)]
       constructor
       · omega
       · split_ifs at hB ⊢ <;> omega)
    | -- a writer leaves pc writing (sem_post of the unlock)
      (unfold rwInv
       dsimp only
       have hpos := count_pos_of_get? _ _ _ (by assumption)
       rw [count_set_of_ne _ _ _ _ PC.reading (by assumption) (by decide) (by decide),
           count_set_from _ _ _ _ PC.writing (by assumption) rfl (by decide)]
       constructor
       · exact hA
       · split_ifs at hB ⊢ <;> omega)

theorem rwInv_init (p : PRIORITY) (n threadCount : Nat) :
    rwInv (rwInit p n threadCount) := by
  unfold rwInv rwInit
  simp [List.count_replicate]

theorem rwInv_reach {s0 s : RwState} (h0 : rwInv s0) (h : RwReach s0 s) : rwInv s := by
  induction h with
  | refl => exact h0
  | tail _ hs ih => exact rwInv_step hs ih

/-- C1: for every lock produced by rwlock_new, under every policy and along
every interleaving of the four lock operations, no reachable state has
readers_holding positive while some writer holds the write gate. -/
theorem claim_C1 (p : PRIORITY) (n threadCount : Nat) (s0 s : RwState)
    (hnew : rwlock_new p n threadCount = some s0)
    (hreach : RwReach s0 s) :
    ¬ (0 < s.readersHolding ∧ writerInCrit s) := by
  have hs0 : rwInv s0 := by
    cases p with
    | READERS =>
        simp only [rwlock_new, Option.some.injEq] at hnew
        rw [← hnew]
        exact rwInv_init _ _ _
    | WRITERS =>
        simp only [rwlock_new, Option.some.injEq] at hnew
        rw [← hnew]
        exact rwInv_init _ _ _
    | N_WAY =>
        simp only [rwlock_new] at hnew
        split at hnew
        · cases hnew
        · injection hnew with hnew
          rw [← hnew]
          exact rwInv_init _ _ _
  obtain ⟨hA, hB⟩ := rwInv_reach hs0 hreach
  rintro ⟨hrh, i, hw⟩
  have hcw := count_pos_of_get? s.threads i PC.writing hw
  rw [if_pos hrh] at hB
  omega

/-- Witness for C1 at a concrete lock (READERS policy, two threads) and
its initial state. -/
theorem claim_C1_witness :
    rwlock_new PRIORITY.READERS 1 2 = some (rwInit PRIORITY.READERS 1 2) ∧
    ¬ (0 < (rwInit PRIORITY.READERS 1 2).readersHolding ∧
        writerInCrit (rwInit PRIORITY.READERS 1 2)) :=
  ⟨rfl, claim_C1 PRIORITY.READERS 1 2 _ _ rfl RwReach.refl⟩

/-! ## Claim C2: N_WAY quota -/

theorem rwStep_n_eq {s s2 : RwState} {a : Act} (h : RwStep s a s2) : s2.n = s.n := by
  cases h <;> rfl

theorem rwStep_rp_eq {s s2 : RwState} {a : Act} (h : RwStep s a s2)
    (h1 : isNwAdmit a = false) (h2 : a ≠ Act.nwWrUnlockRest) :
    s2.nwReadersPassed = s.nwReadersPassed := by
  cases h <;> first
    | rfl
    | exact absurd rfl h2
    | simp [isNwAdmit] at h1

theorem rwStep_admit {s s2 : RwState} {a : Act} (h : RwStep s a s2)
    (ha : isNwAdmit a = true) (hw : 0 < s.nwWritersWaiting) :
    s.nwReadersPassed < s.n ∧ s2.nwReadersPassed = s.nwReadersPassed + 1 := by
  cases h <;> first
    | (rename_i hc hr
       rcases hc with hc | hc
       · refine ⟨hc, ?_⟩
         show (if s.nwReadersPassed < s.n then s.nwReadersPassed + 1
               else s.nwReadersPassed) = s.nwReadersPassed + 1
         rw [if_pos hc]
       · exact absurd hc (by omega))
    | simp [isNwAdmit] at ha

/-- Along any execution fragment during which a writer is queued
throughout and no writer release occurs, the number of readers admitted
past the quota check is bounded by the unexhausted part of the window
quota. -/
theorem nway_window_quota :
    ∀ (tr : List (Act × RwState)) (s : RwState), RwExec s tr →
      0 < s.nwWritersWaiting →
      (∀ p, p ∈ tr → 0 < p.2.nwWritersWaiting) →
      (∀ p, p ∈ tr → p.1 ≠ Act.nwWrUnlockRest) →
      countAdmits tr ≤ s.n - s.nwReadersPassed := by
  intro tr
  induction tr with
  | nil =>
      intro s _ _ _ _
      simp [countAdmits]
  | cons p tr ih =>
      intro s hexec hw hws hnr
      obtain ⟨a, s2⟩ := p
      cases hexec with
      | cons hs hrest =>
          have hw2 : 0 < s2.nwWritersWaiting := hws (a, s2) (by simp)
          have ihh := ih s2 hrest hw2
            (fun q hq => hws q (by simp [hq]))
            (fun q hq => hnr q (by simp [hq]))
          have hn : s2.n = s.n := rwStep_n_eq hs
          by_cases hadm : isNwAdmit a = true
          · obtain ⟨hlt, heq⟩ := rwStep_admit hs hadm hw
            rw [hn, heq] at ihh
            simp only [countAdmits, List.countP_cons, hadm, if_pos] at ihh ⊢
            omega
          · have hrp := rwStep_rp_eq hs (by simpa using hadm)
              (hnr (a, s2) (by simp))
            rw [hn, hrp] at ihh
            simp only [countAdmits, List.countP_cons] at ihh ⊢
            rw [if_neg (by simpa using hadm)]
            omega

theorem rwReach_n_eq {s0 s : RwState} (h : RwReach s0 s) : s.n = s0.n := by
  induction h with
  | refl => rfl
  | tail _ hs ih => rw [rwStep_n_eq hs, ih]

/-- C2 as amended: (i) per window — while a writer is queued and until the
next writer release resets the window — at most n readers are admitted
past the quota check; (ii) when no writer is queued, the quota check never
blocks a reader: an admission step is always enabled at the check. -/
theorem claim_C2_amended :
    (∀ (n threadCount : Nat) (s0 s : RwState) (tr : List (Act × RwState)),
      0 < n →
      rwlock_new PRIORITY.N_WAY n threadCount = some s0 →
      RwReach s0 s →
      RwExec s tr →
      0 < s.nwWritersWaiting →
      (∀ p, p ∈ tr → 0 < p.2.nwWritersWaiting) →
      (∀ p, p ∈ tr → p.1 ≠ Act.nwWrUnlockRest) →
      countAdmits tr ≤ n) ∧
    (∀ (s : RwState) (i : Nat),
      s.priority = PRIORITY.N_WAY →
      s.threads.get? i = some PC.nwRdCheck →
      s.mutex = some i →
      s.nwWritersWaiting = 0 →
      ∃ a s2, RwStep s a s2 ∧ isNwAdmit a = true) := by
  constructor
  · intro n threadCount s0 s tr _ hnew hreach hexec hw hws hnr
    have hbound := nway_window_quota tr s hexec hw hws hnr
    have hsn : s.n = n := by
      rw [rwReach_n_eq hreach]
      simp only [rwlock_new] at hnew
      split at hnew
      · cases hnew
      · injection hnew with hnew
        rw [← hnew]
        rfl
    rw [hsn] at hbound
    omega
  · intro s i hp ht hm hww
    by_cases hr : s.readersHolding = 0
    · exact ⟨Act.nwRdLockAdmitFirst, _,
        RwStep.nwRdLockAdmitFirst s i hp ht hm (Or.inr hww) hr, rfl⟩
    · exact ⟨Act.nwRdLockAdmitMore, _,
        RwStep.nwRdLockAdmitMore s i hp ht hm (Or.inr hww) (Nat.pos_of_ne_zero hr), rfl⟩

/-- The concrete seven-step prefix reaching the scenario state nwSt7. -/
theorem nwReach7 : RwReach nwBase nwSt7 := by
  have h1 : RwStep nwBase Act.nwWrLockEnter nwSt1 :=
    RwStep.nwWrLockEnter nwBase 0 rfl rfl rfl
  have h2 : RwStep nwSt1 Act.nwWrLockGo nwSt2 :=
    RwStep.nwWrLockGo nwSt1 0 rfl rfl rfl rfl (Or.inr rfl)
  have h3 : RwStep nwSt2 Act.nwWrLockSem nwSt3 :=
    RwStep.nwWrLockSem nwSt2 0 rfl rfl (by decide)
  have h4 : RwStep nwSt3 Act.nwWrLockEnter nwSt4 :=
    RwStep.nwWrLockEnter nwSt3 1 rfl rfl rfl
  have h5 : RwStep nwSt4 Act.nwWrLockGo nwSt5 :=
    RwStep.nwWrLockGo nwSt4 1 rfl rfl rfl rfl (Or.inr rfl)
  have h6 : RwStep nwSt5 Act.nwRdLockEnter nwSt6 :=
    RwStep.nwRdLockEnter nwSt5 2 rfl rfl rfl
  have h7 : RwStep nwSt6 Act.nwRdLockAdmitFirst nwSt7 :=
    RwStep.nwRdLockAdmitFirst nwSt6 2 rfl rfl rfl (Or.inl (by decide)) rfl
  exact RwReach.tail (RwReach.tail (RwReach.tail (RwReach.tail (RwReach.tail
    (RwReach.tail (RwReach.tail RwReach.refl h1) h2) h3) h4) h5) h6) h7

/-- The concrete five-step fragment in which two readers enter while the
writer (thread 1) waits. -/
theorem nwExec7 : RwExec nwSt7 nwTrace := by
  refine RwExec.cons ?_ (RwExec.cons ?_ (RwExec.cons ?_ (RwExec.cons ?_
    (RwExec.cons ?_ (RwExec.nil nwSt12)))))
  · exact RwStep.nwWrUnlockPost nwSt7 0 rfl rfl
  · exact RwStep.nwRdLockSem nwSt8 2 rfl rfl rfl (by decide)
  · exact RwStep.nwWrUnlockRest nwSt9 0 rfl rfl rfl
  · exact RwStep.nwRdLockEnter nwSt10 3 rfl rfl rfl
  · exact RwStep.nwRdLockAdmitMore nwSt11 3 rfl rfl rfl (Or.inl (by decide)) (by decide)

/-- C2 as stated is false: in the concrete N_WAY scenario with n = 1,
writer thread 1 calls writer_lock and, while it continuously waits for the
gate, two readers enter the critical region (one straddling the holder's
release, one within the fresh window). -/
theorem claim_C2_counterexample : ¬ NWayQuotaStrict := by
  intro h
  have hq := h 1 4 nwBase nwSt7 nwTrace 1 (by decide) rfl nwReach7 nwExec7
    (by intro pc hpc
        have h2 : some PC.nwWrWaitSem = some pc := hpc
        injection h2 with h2
        rw [← h2]
        rfl)
    (by intro p hp
        simp only [nwTrace, List.mem_cons, List.not_mem_nil, or_false] at hp
        rcases hp with rfl | rfl | rfl | rfl | rfl <;>
          (intro pc hpc
           have h2 : some PC.nwWrWaitSem = some pc := hpc
           injection h2 with h2
           rw [← h2]
           rfl))
  have hc : countReaderEnters nwTrace = 2 := by decide
  omega

/-- Witness for the amended C2 at concrete inputs: the empty fragment from
the reachable scenario state satisfies the window bound, and at a concrete
check state with no writer queued an admission step is enabled. -/
theorem claim_C2_amended_witness :
    countAdmits ([] : List (Act × RwState)) ≤ 1 ∧
    (∃ a s2, RwStep nwStR a s2 ∧ isNwAdmit a = true) :=
  ⟨claim_C2_amended.1 1 4 nwBase nwSt7 [] (by decide) rfl nwReach7
      (RwExec.nil nwSt7) (by decide)
      (fun p hp => absurd hp (List.not_mem_nil p))
      (fun p hp => absurd hp (List.not_mem_nil p)),
    claim_C2_amended.2 nwStR 0 rfl rfl rfl rfl⟩

end Server
